import Mathlib

/-!
Verification development for the plan-transformation core of cube-js/arrow-datafusion.

The definitions below are a shallow embedding of:
  * `datafusion/core/src/logical_plan/expr_rewriter.rs` (expression rewrite protocol,
    column normalization, unnormalization, sort rebasing), and
  * `datafusion/src/physical_plan/projection.rs` (projection operator: output hints,
    partitioning, streaming execution).

Rust `Result<T, DataFusionError>` is embedded as `Except DataFusionError`; machine
integers indexing columns are `Nat` (no arithmetic overflow is possible in the embedded
code paths); reference-counted sharing is replaced by plain value semantics, which the
source treats as functionally equivalent.  Code that the embedded files call but that
lives outside the repository snapshot (for example `Column::normalize_with_schemas`
from `datafusion_common`, or `rebase_expr` from `sql::utils`) is modelled from the
specification; each such definition carries a doc comment starting with
`Modelled from the spec:`.
-/

/-! ## Basic data model: columns, schemas, scalar values -/

/-- Embeds `datafusion_common::Column`: `{relation: Option<String>, name: String}`.
Equality is structural, as in the source (`#[derive(PartialEq, Eq, Hash)]`). -/
structure Column where
  relation : Option String
  name : String
deriving DecidableEq, Repr

/-- Embeds `Column::flat_name`: the display name `relation.name` or bare `name`. -/
def Column.flat_name (c : Column) : String :=
  match c.relation with
  | some r => r ++ "." ++ c.name
  | none => c.name

/-- Embeds `arrow::datatypes::DataType`, restricted to the variants the embedded
code paths construct.  The rewrite machinery only threads data types through. -/
inductive DataType where
  | Int8
  | Int64
  | UInt64
  | Utf8
  | Boolean
deriving DecidableEq, Repr

/-- Embeds `datafusion_common::ScalarValue`, restricted to the variants the
embedded code paths construct; the rewrite machinery treats scalars opaquely. -/
inductive ScalarValue where
  | Utf8 (v : Option String)
  | Int64 (v : Option Int)
  | Boolean (v : Option Bool)
deriving DecidableEq, Repr

/-- Embeds `datafusion_expr::Operator`, restricted to variants used in examples;
the rewrite machinery only threads operators through. -/
inductive Operator where
  | Eq
  | NotEq
  | Plus
  | Minus
  | Multiply
  | Gt
  | Lt
deriving DecidableEq, Repr

/-- Embeds `WindowFrame`; the rewrite machinery only threads frames through,
so only the shape (units tag and two bounds) is kept. -/
structure WindowFrame where
  units : Nat
  start_bound : Nat
  end_bound : Nat
deriving DecidableEq, Repr

/-- Embeds `datafusion_common::DFField`: a schema field with an optional relation
qualifier. -/
structure DFField where
  qualifier : Option String
  name : String
  data_type : DataType
  nullable : Bool
deriving DecidableEq, Repr

/-- Embeds `datafusion_common::DFSchema`: an ordered sequence of fields. -/
structure DFSchema where
  fields : List DFField
deriving DecidableEq, Repr

/-- Embeds `DataFusionError`, restricted to the variants the embedded code
constructs (`Plan` for planning errors, `Internal` for invariant violations). -/
inductive DataFusionError where
  | Plan (msg : String)
  | Internal (msg : String)
deriving DecidableEq, Repr

/-- Embeds `datafusion_common::Result<T> = Result<T, DataFusionError>`. -/
abbrev DFResult (α : Type) := Except DataFusionError α

/-! ## The expression tree

Embeds `datafusion_expr::Expr` with exactly the variants matched by
`Expr::rewrite` in `expr_rewriter.rs` (lines 115–314).  Payloads that the
rewriter does not descend into (operators, data types, function identifiers,
window frames) are kept as opaque scalar data; function identifiers are
`String`s standing for the `fun` enum/UDF of the source. -/

mutual

inductive Expr where
  | alias (expr : Expr) (name : String)
  | column (c : Column)
  | outerColumn (ty : DataType) (c : Column)
  | scalarVariable (ty : DataType) (names : List String)
  | literal (value : ScalarValue)
  | binaryExpr (left : Expr) (op : Operator) (right : Expr)
  | anyExpr (left : Expr) (op : Operator) (right : Expr) (all : Bool)
  | like (negated : Bool) (expr : Expr) (pattern : Expr) (escape_char : Option Char)
  | ilike (negated : Bool) (expr : Expr) (pattern : Expr) (escape_char : Option Char)
  | similarTo (negated : Bool) (expr : Expr) (pattern : Expr) (escape_char : Option Char)
  | not (expr : Expr)
  | isNotNull (expr : Expr)
  | isNull (expr : Expr)
  | negative (expr : Expr)
  | between (expr : Expr) (low : Expr) (high : Expr) (negated : Bool)
  | caseExpr (expr : Option Expr) (when_then_expr : List (Expr × Expr))
      (else_expr : Option Expr)
  | cast (expr : Expr) (data_type : DataType)
  | tryCast (expr : Expr) (data_type : DataType)
  | sort (expr : Expr) (asc : Bool) (nulls_first : Bool)
  | scalarFunction (args : List Expr) (fn : String)
  | scalarUDF (args : List Expr) (fn : String)
  | tableUDF (args : List Expr) (fn : String)
  | windowFunction (args : List Expr) (fn : String) (partition_by : List Expr)
      (order_by : List Expr) (window_frame : Option WindowFrame)
  | aggregateFunction (args : List Expr) (fn : String) (distinct : Bool)
      (within_group : Option (List Expr))
  | groupingSet (g : GroupingSet)
  | aggregateUDF (args : List Expr) (fn : String)
  | inList (expr : Expr) (list : List Expr) (negated : Bool)
  | inSubquery (expr : Expr) (subquery : Expr) (negated : Bool)
  | wildcard
  | qualifiedWildcard (qualifier : String)
  | getIndexedField (expr : Expr) (key : Expr)

inductive GroupingSet where
  | rollup (exprs : List Expr)
  | cube (exprs : List Expr)
  | groupingSets (lists : List (List Expr))

end

/-! ## The rewrite protocol -/

/-- Embeds `RewriteRecursion`: controls how the `ExprRewriter` recursion proceeds. -/
inductive RewriteRecursion where
  | Continue
  | Mutate
  | Stop
  | Skip
deriving DecidableEq, Repr

/-- Embeds the `ExprRewriter` trait.  The Rust methods take `&mut self`; the
mutable rewriter state is embedded as an explicit state of type `σ` threaded
through both methods.  `pre_visit` defaults to `Continue`, as in the source. -/
structure ExprRewriter (σ : Type) where
  pre_visit : σ → Expr → DFResult (σ × RewriteRecursion) := fun s _ => .ok (s, .Continue)
  mutate : σ → Expr → DFResult (σ × Expr)

mutual

/-- Embeds `Expr::rewrite` (expr_rewriter.rs lines 103–322): depth-first rewrite
of an expression.  The big `match self` block that rewrites the children is
factored into `rewriteChildren` below; the control flow (early returns for
`Mutate`/`Stop`, the `need_mutate` flag for `Continue`/`Skip`, and the final
conditional `mutate`) mirrors the source. -/
def Expr.rewrite {σ : Type} (rewriter : ExprRewriter σ) (s : σ) (e : Expr) :
    DFResult (σ × Expr) := do
  let (s0, recursion) ← rewriter.pre_visit s e
  match recursion with
  | .Mutate => rewriter.mutate s0 e
  | .Stop => .ok (s0, e)
  | other =>
    let need_mutate := match other with
      | .Continue => true
      | _ => false
    let (s1, expr) ← rewriteChildren rewriter s0 e
    if need_mutate then rewriter.mutate s1 expr else .ok (s1, expr)

/-- Embeds the `match self` block of `Expr::rewrite` (lines 115–314): recurse
into all sub-expressions, covering every expression variant, then reconstruct
the node with the rewritten children. -/
def rewriteChildren {σ : Type} (rewriter : ExprRewriter σ) (s : σ) (e : Expr) :
    DFResult (σ × Expr) := do
  match e with
  | .alias expr name => do
    let (s1, e1) ← Expr.rewrite rewriter s expr
    .ok (s1, .alias e1 name)
  | .column c => .ok (s, .column c)
  | .outerColumn ty c => .ok (s, .outerColumn ty c)
  | .scalarVariable ty names => .ok (s, .scalarVariable ty names)
  | .literal value => .ok (s, .literal value)
  | .binaryExpr left op right => do
    let (s1, l1) ← Expr.rewrite rewriter s left
    let (s2, r1) ← Expr.rewrite rewriter s1 right
    .ok (s2, .binaryExpr l1 op r1)
  | .anyExpr left op right all => do
    let (s1, l1) ← Expr.rewrite rewriter s left
    let (s2, r1) ← Expr.rewrite rewriter s1 right
    .ok (s2, .anyExpr l1 op r1 all)
  | .like negated expr pattern escape_char => do
    let (s1, e1) ← Expr.rewrite rewriter s expr
    let (s2, p1) ← Expr.rewrite rewriter s1 pattern
    .ok (s2, .like negated e1 p1 escape_char)
  | .ilike negated expr pattern escape_char => do
    let (s1, e1) ← Expr.rewrite rewriter s expr
    let (s2, p1) ← Expr.rewrite rewriter s1 pattern
    .ok (s2, .ilike negated e1 p1 escape_char)
  | .similarTo negated expr pattern escape_char => do
    let (s1, e1) ← Expr.rewrite rewriter s expr
    let (s2, p1) ← Expr.rewrite rewriter s1 pattern
    .ok (s2, .similarTo negated e1 p1 escape_char)
  | .not expr => do
    let (s1, e1) ← Expr.rewrite rewriter s expr
    .ok (s1, .not e1)
  | .isNotNull expr => do
    let (s1, e1) ← Expr.rewrite rewriter s expr
    .ok (s1, .isNotNull e1)
  | .isNull expr => do
    let (s1, e1) ← Expr.rewrite rewriter s expr
    .ok (s1, .isNull e1)
  | .negative expr => do
    let (s1, e1) ← Expr.rewrite rewriter s expr
    .ok (s1, .negative e1)
  | .between expr low high negated => do
    let (s1, e1) ← Expr.rewrite rewriter s expr
    let (s2, lo1) ← Expr.rewrite rewriter s1 low
    let (s3, hi1) ← Expr.rewrite rewriter s2 high
    .ok (s3, .between e1 lo1 hi1 negated)
  | .caseExpr expr when_then_expr else_expr => do
    let (s1, e1) ← rewrite_option_box rewriter s expr
    let (s2, wt1) ← rewrite_when_then rewriter s1 when_then_expr
    let (s3, el1) ← rewrite_option_box rewriter s2 else_expr
    .ok (s3, .caseExpr e1 wt1 el1)
  | .cast expr data_type => do
    let (s1, e1) ← Expr.rewrite rewriter s expr
    .ok (s1, .cast e1 data_type)
  | .tryCast expr data_type => do
    let (s1, e1) ← Expr.rewrite rewriter s expr
    .ok (s1, .tryCast e1 data_type)
  | .sort expr asc nulls_first => do
    let (s1, e1) ← Expr.rewrite rewriter s expr
    .ok (s1, .sort e1 asc nulls_first)
  | .scalarFunction args fn => do
    let (s1, a1) ← rewrite_vec rewriter s args
    .ok (s1, .scalarFunction a1 fn)
  | .scalarUDF args fn => do
    let (s1, a1) ← rewrite_vec rewriter s args
    .ok (s1, .scalarUDF a1 fn)
  | .tableUDF args fn => do
    let (s1, a1) ← rewrite_vec rewriter s args
    .ok (s1, .tableUDF a1 fn)
  | .windowFunction args fn partition_by order_by window_frame => do
    let (s1, a1) ← rewrite_vec rewriter s args
    let (s2, p1) ← rewrite_vec rewriter s1 partition_by
    let (s3, o1) ← rewrite_vec rewriter s2 order_by
    .ok (s3, .windowFunction a1 fn p1 o1 window_frame)
  | .aggregateFunction args fn distinct within_group => do
    let (s1, w1) ← rewrite_within_group rewriter s within_group
    let (s2, a1) ← rewrite_vec rewriter s1 args
    .ok (s2, .aggregateFunction a1 fn distinct w1)
  | .groupingSet (.rollup exprs) => do
    let (s1, e1) ← rewrite_vec rewriter s exprs
    .ok (s1, .groupingSet (.rollup e1))
  | .groupingSet (.cube exprs) => do
    let (s1, e1) ← rewrite_vec rewriter s exprs
    .ok (s1, .groupingSet (.cube e1))
  | .groupingSet (.groupingSets lists) => do
    let (s1, l1) ← rewrite_vec_vec rewriter s lists
    .ok (s1, .groupingSet (.groupingSets l1))
  | .aggregateUDF args fn => do
    let (s1, a1) ← rewrite_vec rewriter s args
    .ok (s1, .aggregateUDF a1 fn)
  | .inList expr list negated => do
    let (s1, e1) ← Expr.rewrite rewriter s expr
    let (s2, l1) ← rewrite_vec rewriter s1 list
    .ok (s2, .inList e1 l1 negated)
  | .inSubquery expr subquery negated => do
    let (s1, e1) ← Expr.rewrite rewriter s expr
    let (s2, q1) ← Expr.rewrite rewriter s1 subquery
    .ok (s2, .inSubquery e1 q1 negated)
  | .wildcard => .ok (s, .wildcard)
  | .qualifiedWildcard qualifier => .ok (s, .qualifiedWildcard qualifier)
  | .getIndexedField expr key => do
    let (s1, e1) ← Expr.rewrite rewriter s expr
    let (s2, k1) ← Expr.rewrite rewriter s1 key
    .ok (s2, .getIndexedField e1 k1)

/-- Embeds `rewrite_vec` (lines 350–355): rewrite a `Vec` of expressions
left to right. -/
def rewrite_vec {σ : Type} (rewriter : ExprRewriter σ) (s : σ) (v : List Expr) :
    DFResult (σ × List Expr) := do
  match v with
  | [] => .ok (s, [])
  | e :: rest => do
    let (s1, e1) ← Expr.rewrite rewriter s e
    let (s2, rest1) ← rewrite_vec rewriter s1 rest
    .ok (s2, e1 :: rest1)

/-- Embeds the nested rewrite of `GroupingSet::GroupingSets` (lines 275–282):
rewrite every inner expression list. -/
def rewrite_vec_vec {σ : Type} (rewriter : ExprRewriter σ) (s : σ)
    (v : List (List Expr)) : DFResult (σ × List (List Expr)) := do
  match v with
  | [] => .ok (s, [])
  | l :: rest => do
    let (s1, l1) ← rewrite_vec rewriter s l
    let (s2, rest1) ← rewrite_vec_vec rewriter s1 rest
    .ok (s2, l1 :: rest1)

/-- Embeds the `match within_group` block of the `AggregateFunction` case
(lines 257–260): rewrite the optional within-group expression list. -/
def rewrite_within_group {σ : Type} (rewriter : ExprRewriter σ) (s : σ)
    (v : Option (List Expr)) : DFResult (σ × Option (List Expr)) := do
  match v with
  | none => .ok (s, (none : Option (List Expr)))
  | some wg => do
    let (s1, w1) ← rewrite_vec rewriter s wg
    .ok (s1, some w1)

/-- Embeds the rewrite of `Case`'s `(when, then)` pairs (lines 191–199):
each pair is rewritten left to right. -/
def rewrite_when_then {σ : Type} (rewriter : ExprRewriter σ) (s : σ)
    (v : List (Expr × Expr)) : DFResult (σ × List (Expr × Expr)) := do
  match v with
  | [] => .ok (s, [])
  | (w, t) :: rest => do
    let (s1, w1) ← Expr.rewrite rewriter s w
    let (s2, t1) ← Expr.rewrite rewriter s1 t
    let (s3, rest1) ← rewrite_when_then rewriter s2 rest
    .ok (s3, (w1, t1) :: rest1)

/-- Embeds `rewrite_option_box` (lines 337–347): rewrite an optional boxed
expression. -/
def rewrite_option_box {σ : Type} (rewriter : ExprRewriter σ) (s : σ)
    (v : Option Expr) : DFResult (σ × Option Expr) := do
  match v with
  | none => .ok (s, (none : Option Expr))
  | some e => do
    let (s1, e1) ← Expr.rewrite rewriter s e
    .ok (s1, some e1)

end

/-! ## Structural equality of expressions

Embeds the derived `PartialEq` on `Expr` (structural equality), used by
`rebase_expr` through `base_exprs.contains(..)`.  The automatic `DecidableEq`
derivation does not handle this nested inductive, so the boolean equality is
written out. -/

mutual

def Expr.eqb : Expr → Expr → Bool
  | .alias e1 n1, b =>
    match b with
    | .alias e2 n2 => Expr.eqb e1 e2 && n1 == n2
    | _ => false
  | .column c1, b =>
    match b with
    | .column c2 => c1 == c2
    | _ => false
  | .outerColumn t1 c1, b =>
    match b with
    | .outerColumn t2 c2 => t1 == t2 && c1 == c2
    | _ => false
  | .scalarVariable t1 n1, b =>
    match b with
    | .scalarVariable t2 n2 => t1 == t2 && n1 == n2
    | _ => false
  | .literal v1, b =>
    match b with
    | .literal v2 => v1 == v2
    | _ => false
  | .binaryExpr l1 o1 r1, b =>
    match b with
    | .binaryExpr l2 o2 r2 => Expr.eqb l1 l2 && o1 == o2 && Expr.eqb r1 r2
    | _ => false
  | .anyExpr l1 o1 r1 a1, b =>
    match b with
    | .anyExpr l2 o2 r2 a2 => Expr.eqb l1 l2 && o1 == o2 && Expr.eqb r1 r2 && a1 == a2
    | _ => false
  | .like n1 e1 p1 c1, b =>
    match b with
    | .like n2 e2 p2 c2 => n1 == n2 && Expr.eqb e1 e2 && Expr.eqb p1 p2 && c1 == c2
    | _ => false
  | .ilike n1 e1 p1 c1, b =>
    match b with
    | .ilike n2 e2 p2 c2 => n1 == n2 && Expr.eqb e1 e2 && Expr.eqb p1 p2 && c1 == c2
    | _ => false
  | .similarTo n1 e1 p1 c1, b =>
    match b with
    | .similarTo n2 e2 p2 c2 => n1 == n2 && Expr.eqb e1 e2 && Expr.eqb p1 p2 && c1 == c2
    | _ => false
  | .not e1, b =>
    match b with
    | .not e2 => Expr.eqb e1 e2
    | _ => false
  | .isNotNull e1, b =>
    match b with
    | .isNotNull e2 => Expr.eqb e1 e2
    | _ => false
  | .isNull e1, b =>
    match b with
    | .isNull e2 => Expr.eqb e1 e2
    | _ => false
  | .negative e1, b =>
    match b with
    | .negative e2 => Expr.eqb e1 e2
    | _ => false
  | .between e1 l1 h1 n1, b =>
    match b with
    | .between e2 l2 h2 n2 =>
      Expr.eqb e1 e2 && Expr.eqb l1 l2 && Expr.eqb h1 h2 && n1 == n2
    | _ => false
  | .caseExpr e1 w1 el1, b =>
    match b with
    | .caseExpr e2 w2 el2 =>
      Expr.eqbOpt e1 e2 && Expr.eqbPairs w1 w2 && Expr.eqbOpt el1 el2
    | _ => false
  | .cast e1 t1, b =>
    match b with
    | .cast e2 t2 => Expr.eqb e1 e2 && t1 == t2
    | _ => false
  | .tryCast e1 t1, b =>
    match b with
    | .tryCast e2 t2 => Expr.eqb e1 e2 && t1 == t2
    | _ => false
  | .sort e1 a1 n1, b =>
    match b with
    | .sort e2 a2 n2 => Expr.eqb e1 e2 && a1 == a2 && n1 == n2
    | _ => false
  | .scalarFunction a1 f1, b =>
    match b with
    | .scalarFunction a2 f2 => Expr.eqbList a1 a2 && f1 == f2
    | _ => false
  | .scalarUDF a1 f1, b =>
    match b with
    | .scalarUDF a2 f2 => Expr.eqbList a1 a2 && f1 == f2
    | _ => false
  | .tableUDF a1 f1, b =>
    match b with
    | .tableUDF a2 f2 => Expr.eqbList a1 a2 && f1 == f2
    | _ => false
  | .windowFunction a1 f1 p1 o1 w1, b =>
    match b with
    | .windowFunction a2 f2 p2 o2 w2 =>
      Expr.eqbList a1 a2 && f1 == f2 && Expr.eqbList p1 p2 && Expr.eqbList o1 o2
        && w1 == w2
    | _ => false
  | .aggregateFunction a1 f1 d1 w1, b =>
    match b with
    | .aggregateFunction a2 f2 d2 w2 =>
      Expr.eqbList a1 a2 && f1 == f2 && d1 == d2 && Expr.eqbOptList w1 w2
    | _ => false
  | .groupingSet (.rollup e1), b =>
    match b with
    | .groupingSet (.rollup e2) => Expr.eqbList e1 e2
    | _ => false
  | .groupingSet (.cube e1), b =>
    match b with
    | .groupingSet (.cube e2) => Expr.eqbList e1 e2
    | _ => false
  | .groupingSet (.groupingSets l1), b =>
    match b with
    | .groupingSet (.groupingSets l2) => Expr.eqbListList l1 l2
    | _ => false
  | .aggregateUDF a1 f1, b =>
    match b with
    | .aggregateUDF a2 f2 => Expr.eqbList a1 a2 && f1 == f2
    | _ => false
  | .inList e1 l1 n1, b =>
    match b with
    | .inList e2 l2 n2 => Expr.eqb e1 e2 && Expr.eqbList l1 l2 && n1 == n2
    | _ => false
  | .inSubquery e1 q1 n1, b =>
    match b with
    | .inSubquery e2 q2 n2 => Expr.eqb e1 e2 && Expr.eqb q1 q2 && n1 == n2
    | _ => false
  | .wildcard, b =>
    match b with
    | .wildcard => true
    | _ => false
  | .qualifiedWildcard q1, b =>
    match b with
    | .qualifiedWildcard q2 => q1 == q2
    | _ => false
  | .getIndexedField e1 k1, b =>
    match b with
    | .getIndexedField e2 k2 => Expr.eqb e1 e2 && Expr.eqb k1 k2
    | _ => false

def Expr.eqbList : List Expr → List Expr → Bool
  | [], b =>
    match b with
    | [] => true
    | _ => false
  | e1 :: r1, b =>
    match b with
    | e2 :: r2 => Expr.eqb e1 e2 && Expr.eqbList r1 r2
    | _ => false

def Expr.eqbListList : List (List Expr) → List (List Expr) → Bool
  | [], b =>
    match b with
    | [] => true
    | _ => false
  | l1 :: r1, b =>
    match b with
    | l2 :: r2 => Expr.eqbList l1 l2 && Expr.eqbListList r1 r2
    | _ => false

def Expr.eqbPairs : List (Expr × Expr) → List (Expr × Expr) → Bool
  | [], b =>
    match b with
    | [] => true
    | _ => false
  | (a1, b1) :: r1, b =>
    match b with
    | (a2, b2) :: r2 => Expr.eqb a1 a2 && Expr.eqb b1 b2 && Expr.eqbPairs r1 r2
    | _ => false

def Expr.eqbOpt : Option Expr → Option Expr → Bool
  | none, b =>
    match b with
    | none => true
    | _ => false
  | some e1, b =>
    match b with
    | some e2 => Expr.eqb e1 e2
    | _ => false

def Expr.eqbOptList : Option (List Expr) → Option (List Expr) → Bool
  | none, b =>
    match b with
    | none => true
    | _ => false
  | some l1, b =>
    match b with
    | some l2 => Expr.eqbList l1 l2
    | _ => false

end

instance : BEq Expr := ⟨Expr.eqb⟩

/-! ## Column occurrences

Specification-side helper: the list of `Column` nodes occurring in an
expression, in depth-first left-to-right order (the order `Expr::rewrite`
visits them).  Used to state which columns a rewrite touches. -/

mutual

def Expr.columns : Expr → List Column
  | .alias expr _ => expr.columns
  | .column c => [c]
  | .outerColumn _ _ => []
  | .scalarVariable _ _ => []
  | .literal _ => []
  | .binaryExpr left _ right => left.columns ++ right.columns
  | .anyExpr left _ right _ => left.columns ++ right.columns
  | .like _ expr pattern _ => expr.columns ++ pattern.columns
  | .ilike _ expr pattern _ => expr.columns ++ pattern.columns
  | .similarTo _ expr pattern _ => expr.columns ++ pattern.columns
  | .not expr => expr.columns
  | .isNotNull expr => expr.columns
  | .isNull expr => expr.columns
  | .negative expr => expr.columns
  | .between expr low high _ => expr.columns ++ low.columns ++ high.columns
  | .caseExpr expr when_then_expr else_expr =>
    Expr.columnsOpt expr ++ Expr.columnsPairs when_then_expr ++ Expr.columnsOpt else_expr
  | .cast expr _ => expr.columns
  | .tryCast expr _ => expr.columns
  | .sort expr _ _ => expr.columns
  | .scalarFunction args _ => Expr.columnsList args
  | .scalarUDF args _ => Expr.columnsList args
  | .tableUDF args _ => Expr.columnsList args
  | .windowFunction args _ partition_by order_by _ =>
    Expr.columnsList args ++ Expr.columnsList partition_by ++ Expr.columnsList order_by
  | .aggregateFunction args _ _ within_group =>
    Expr.columnsOptList within_group ++ Expr.columnsList args
  | .groupingSet (.rollup exprs) => Expr.columnsList exprs
  | .groupingSet (.cube exprs) => Expr.columnsList exprs
  | .groupingSet (.groupingSets lists) => Expr.columnsListList lists
  | .aggregateUDF args _ => Expr.columnsList args
  | .inList expr list _ => expr.columns ++ Expr.columnsList list
  | .inSubquery expr subquery _ => expr.columns ++ subquery.columns
  | .wildcard => []
  | .qualifiedWildcard _ => []
  | .getIndexedField expr key => expr.columns ++ key.columns

def Expr.columnsList : List Expr → List Column
  | [] => []
  | e :: rest => e.columns ++ Expr.columnsList rest

def Expr.columnsListList : List (List Expr) → List Column
  | [] => []
  | l :: rest => Expr.columnsList l ++ Expr.columnsListList rest

def Expr.columnsPairs : List (Expr × Expr) → List Column
  | [] => []
  | (a, b) :: rest => a.columns ++ b.columns ++ Expr.columnsPairs rest

def Expr.columnsOpt : Option Expr → List Column
  | none => []
  | some e => e.columns

def Expr.columnsOptList : Option (List Expr) → List Column
  | none => []
  | some l => Expr.columnsList l

end

/-! ## Column-only rewriters and their functional specification

The rewriters in `expr_rewriter.rs` that all claims about normalization rely
on (`ColumnNormalizer`, `RemoveQualifier`) share one shape: default
`pre_visit` (always `Continue`), and a `mutate` that transforms `Column`
nodes and leaves every other node unchanged.  `column_rewriter` captures that
shape; `mapColsM` is the specification-side structural recursion it is later
proved to agree with. -/

/-- Embeds the shared shape of `ColumnNormalizer` (lines 450–466) and
`RemoveQualifier` (lines 540–554): stateless rewriter whose `mutate`
applies `f` to `Column` nodes and is the identity elsewhere. -/
def column_rewriter (f : Column → DFResult Expr) : ExprRewriter Unit where
  mutate := fun s e => match e with
    | .column c => (f c).map (fun e1 => (s, e1))
    | e => .ok (s, e)

mutual

/-- Specification-side recursion: apply `f` to every `Column` node,
rebuilding the tree, short-circuiting on the first error (depth-first,
left-to-right).  Proved below to agree with `Expr.rewrite (column_rewriter f)`. -/
def mapColsM (f : Column → DFResult Expr) : Expr → DFResult Expr
  | .alias expr name => do
    let e1 ← mapColsM f expr
    .ok (.alias e1 name)
  | .column c => f c
  | .outerColumn ty c => .ok (.outerColumn ty c)
  | .scalarVariable ty names => .ok (.scalarVariable ty names)
  | .literal value => .ok (.literal value)
  | .binaryExpr left op right => do
    let l1 ← mapColsM f left
    let r1 ← mapColsM f right
    .ok (.binaryExpr l1 op r1)
  | .anyExpr left op right all => do
    let l1 ← mapColsM f left
    let r1 ← mapColsM f right
    .ok (.anyExpr l1 op r1 all)
  | .like negated expr pattern escape_char => do
    let e1 ← mapColsM f expr
    let p1 ← mapColsM f pattern
    .ok (.like negated e1 p1 escape_char)
  | .ilike negated expr pattern escape_char => do
    let e1 ← mapColsM f expr
    let p1 ← mapColsM f pattern
    .ok (.ilike negated e1 p1 escape_char)
  | .similarTo negated expr pattern escape_char => do
    let e1 ← mapColsM f expr
    let p1 ← mapColsM f pattern
    .ok (.similarTo negated e1 p1 escape_char)
  | .not expr => do
    let e1 ← mapColsM f expr
    .ok (.not e1)
  | .isNotNull expr => do
    let e1 ← mapColsM f expr
    .ok (.isNotNull e1)
  | .isNull expr => do
    let e1 ← mapColsM f expr
    .ok (.isNull e1)
  | .negative expr => do
    let e1 ← mapColsM f expr
    .ok (.negative e1)
  | .between expr low high negated => do
    let e1 ← mapColsM f expr
    let lo1 ← mapColsM f low
    let hi1 ← mapColsM f high
    .ok (.between e1 lo1 hi1 negated)
  | .caseExpr expr when_then_expr else_expr => do
    let e1 ← mapColsMOpt f expr
    let wt1 ← mapColsMPairs f when_then_expr
    let el1 ← mapColsMOpt f else_expr
    .ok (.caseExpr e1 wt1 el1)
  | .cast expr data_type => do
    let e1 ← mapColsM f expr
    .ok (.cast e1 data_type)
  | .tryCast expr data_type => do
    let e1 ← mapColsM f expr
    .ok (.tryCast e1 data_type)
  | .sort expr asc nulls_first => do
    let e1 ← mapColsM f expr
    .ok (.sort e1 asc nulls_first)
  | .scalarFunction args fn => do
    let a1 ← mapColsMList f args
    .ok (.scalarFunction a1 fn)
  | .scalarUDF args fn => do
    let a1 ← mapColsMList f args
    .ok (.scalarUDF a1 fn)
  | .tableUDF args fn => do
    let a1 ← mapColsMList f args
    .ok (.tableUDF a1 fn)
  | .windowFunction args fn partition_by order_by window_frame => do
    let a1 ← mapColsMList f args
    let p1 ← mapColsMList f partition_by
    let o1 ← mapColsMList f order_by
    .ok (.windowFunction a1 fn p1 o1 window_frame)
  | .aggregateFunction args fn distinct within_group => do
    let w1 ← mapColsMOptList f within_group
    let a1 ← mapColsMList f args
    .ok (.aggregateFunction a1 fn distinct w1)
  | .groupingSet (.rollup exprs) => do
    let e1 ← mapColsMList f exprs
    .ok (.groupingSet (.rollup e1))
  | .groupingSet (.cube exprs) => do
    let e1 ← mapColsMList f exprs
    .ok (.groupingSet (.cube e1))
  | .groupingSet (.groupingSets lists) => do
    let l1 ← mapColsMListList f lists
    .ok (.groupingSet (.groupingSets l1))
  | .aggregateUDF args fn => do
    let a1 ← mapColsMList f args
    .ok (.aggregateUDF a1 fn)
  | .inList expr list negated => do
    let e1 ← mapColsM f expr
    let l1 ← mapColsMList f list
    .ok (.inList e1 l1 negated)
  | .inSubquery expr subquery negated => do
    let e1 ← mapColsM f expr
    let q1 ← mapColsM f subquery
    .ok (.inSubquery e1 q1 negated)
  | .wildcard => .ok .wildcard
  | .qualifiedWildcard qualifier => .ok (.qualifiedWildcard qualifier)
  | .getIndexedField expr key => do
    let e1 ← mapColsM f expr
    let k1 ← mapColsM f key
    .ok (.getIndexedField e1 k1)

def mapColsMList (f : Column → DFResult Expr) : List Expr → DFResult (List Expr)
  | [] => .ok []
  | e :: rest => do
    let e1 ← mapColsM f e
    let rest1 ← mapColsMList f rest
    .ok (e1 :: rest1)

def mapColsMListList (f : Column → DFResult Expr) :
    List (List Expr) → DFResult (List (List Expr))
  | [] => .ok []
  | l :: rest => do
    let l1 ← mapColsMList f l
    let rest1 ← mapColsMListList f rest
    .ok (l1 :: rest1)

def mapColsMPairs (f : Column → DFResult Expr) :
    List (Expr × Expr) → DFResult (List (Expr × Expr))
  | [] => .ok []
  | (a, b) :: rest => do
    let a1 ← mapColsM f a
    let b1 ← mapColsM f b
    let rest1 ← mapColsMPairs f rest
    .ok ((a1, b1) :: rest1)

def mapColsMOpt (f : Column → DFResult Expr) : Option Expr → DFResult (Option Expr)
  | none => .ok none
  | some e => do
    let e1 ← mapColsM f e
    .ok (some e1)

def mapColsMOptList (f : Column → DFResult Expr) :
    Option (List Expr) → DFResult (Option (List Expr))
  | none => .ok none
  | some l => do
    let l1 ← mapColsMList f l
    .ok (some l1)

end

/-! ## Column normalization -/

/-- Specification-side predicate factored out of the resolution rule: a schema
field matches a column when the field name matches and, if the column is
already qualified, the qualifier matches too. -/
def field_matches (c : Column) (f : DFField) : Bool :=
  f.name == c.name && (c.relation.isNone || c.relation == f.qualifier)

/-- Modelled from the spec: `Column::normalize_with_schemas` lives in
`datafusion_common`, outside the repository snapshot (only its caller
`normalize_col_with_schemas` is present).  Per the spec, the column is
resolved against the schemas in the given order: the first schema containing a
field whose name matches (and whose qualifier matches if the column is already
qualified) wins; if no schema matches, resolution fails with a `Plan` error
carrying the message `Column #<name> not found in provided schemas`.  The
`using_columns` tie-breaking between several matches inside one schema is not
modelled (the first matching field wins); every claim below uses empty
`using_columns`. -/
def Column.normalize_with_schemas (c : Column) (schemas : List DFSchema)
    (using_columns : List (List Column)) : DFResult Column :=
  match schemas.findSome? (fun schema => schema.fields.find? (field_matches c)) with
  | some f => .ok ⟨f.qualifier, f.name⟩
  | none => .error (.Plan ("Column #" ++ c.flat_name ++ " not found in provided schemas"))

/-- Embeds `normalize_col_with_schemas` (lines 445–472): rewrite every `Column`
node of the expression with `Column::normalize_with_schemas`, via the
`ColumnNormalizer` rewriter (default `pre_visit`, `mutate` normalizing
`Column` nodes). -/
def normalize_col_with_schemas (expr : Expr) (schemas : List DFSchema)
    (using_columns : List (List Column)) : DFResult Expr :=
  (Expr.rewrite
    (column_rewriter (fun c =>
      (Column.normalize_with_schemas c schemas using_columns).map Expr.column))
    () expr).map Prod.snd

/-- Embeds `unnormalize_col` (lines 539–558): remove all qualifiers from the
`Column` nodes of an expression, via the `RemoveQualifier` rewriter.  The
source unwraps the result with `.expect("Unnormalize is infallable")`; the
embedding returns the input expression in the (unreachable, see
`unnormalize_col_eq` below) error branch. -/
def unnormalize_col (expr : Expr) : Expr :=
  match Expr.rewrite
      (column_rewriter (fun c => .ok (.column ⟨none, c.name⟩))) () expr with
  | .ok (_, e) => e
  | .error _ => expr

/-- Embeds `unnormalize_cols` (lines 562–564). -/
def unnormalize_cols (exprs : List Expr) : List Expr :=
  exprs.map unnormalize_col

/-! ## Logical plans and sort rebasing -/

/-- Embeds the `LogicalPlan` nodes the sort rebaser inspects (`Aggregate`,
`Projection`) plus a generic leaf standing for any other plan (the rebaser
treats every other node as pass-through).  Per the spec, each node exposes its
own schema and its expression lists. -/
inductive LogicalPlan where
  | Aggregate (input : LogicalPlan) (group_expr : List Expr) (aggr_expr : List Expr)
      (schema : DFSchema)
  | Projection (input : LogicalPlan) (expr : List Expr) (schema : DFSchema)
  | TableScan (schema : DFSchema)

/-- Embeds `LogicalPlan::schema`. -/
def LogicalPlan.schema : LogicalPlan → DFSchema
  | .Aggregate _ _ _ schema => schema
  | .Projection _ _ schema => schema
  | .TableScan schema => schema

/-- Modelled from the spec: `LogicalPlan::all_schemas` lives outside the
snapshot.  Per the spec interface, a plan node exposes its own and its
inputs' schemas; the list is ordered own-schema-first so that
`normalize_col` resolves against the node's own schema with priority. -/
def LogicalPlan.all_schemas : LogicalPlan → List DFSchema
  | .Aggregate input _ _ schema => schema :: input.all_schemas
  | .Projection input _ schema => schema :: input.all_schemas
  | .TableScan schema => [schema]

/-- Modelled from the spec: `LogicalPlan::using_columns` lives outside the
snapshot.  The modelled plans contain no `USING` join, so the set of using
groups is empty. -/
def LogicalPlan.using_columns (_ : LogicalPlan) : List (List Column) := []

/-- Embeds `normalize_col` (lines 439–441): normalize against the plan's
schemas and using-columns. -/
def normalize_col (expr : Expr) (plan : LogicalPlan) : DFResult Expr :=
  normalize_col_with_schemas expr plan.all_schemas plan.using_columns

/-- Embeds `normalize_cols` (lines 475–483). -/
def normalize_cols (exprs : List Expr) (plan : LogicalPlan) : DFResult (List Expr) :=
  exprs.mapM (fun e => normalize_col e plan)

/-- Modelled from the spec: the output-column name of an expression (the
`Expr::name` used by `expr_as_column_expr` in `sql::utils`, outside the
snapshot).  An `Alias` names its output directly; a bare column is named by
its flat name.  Other variants get a schematic rendering; the claims only
exercise the `alias` and `column` cases. -/
def Expr.output_name : Expr → String
  | .alias _ name => name
  | .column c => c.flat_name
  | .aggregateFunction _ fn _ _ => fn ++ "(..)"
  | .scalarFunction _ fn => fn ++ "(..)"
  | .binaryExpr _ _ _ => "<binary>"
  | _ => "<expr>"

/-- Modelled from the spec: strip a top-level `Alias`, exposing the defining
expression of an aliased output column. -/
def Expr.strip_alias : Expr → Expr
  | .alias e _ => e
  | e => e

/-- Modelled from the spec: does the base expression `b` (one of an
aggregate's or projection's defining expressions) match the sub-expression
`e`?  Matching is structural, with a top-level alias on the base expression
ignored: `count(c1) as cnt` defines the output column `cnt` for the
expression `count(c1)`. -/
def base_expr_matches (e : Expr) (b : Expr) : Bool :=
  b == e || b.strip_alias == e

/-- Modelled from the spec: `rebase_expr` lives in `sql::utils`, outside the
snapshot.  Per the spec, it attempts structural substitution of the
expression against the base expression list: any subtree matching one of the
base expressions is replaced by a reference to that base expression's output
column, and the replaced subtree is not descended into.  Implemented with the
rewrite protocol: `pre_visit` answers `Mutate` on a match (replace, do not
visit children) and `Skip` otherwise (visit children, leave the node). -/
def rebase_rewriter (base_exprs : List Expr) : ExprRewriter Unit where
  pre_visit := fun s e =>
    .ok (s, if base_exprs.any (base_expr_matches e) then .Mutate else .Skip)
  mutate := fun s e =>
    match base_exprs.find? (base_expr_matches e) with
    | some b => .ok (s, .column ⟨none, b.output_name⟩)
    | none => .ok (s, e)

/-- Modelled from the spec: see `rebase_rewriter`. -/
def rebase_expr (expr : Expr) (base_exprs : List Expr) (_plan : LogicalPlan) :
    DFResult Expr :=
  (Expr.rewrite (rebase_rewriter base_exprs) () expr).map Prod.snd

/-- Modelled from the spec: `extract_aliased_expr_names` lives in
`sql::utils`, outside the snapshot.  It builds the projection's alias map:
for each `Alias` in the expression list, the defining expression's output
name maps to the alias. -/
def extract_aliased_expr_names (exprs : List Expr) (_schema : DFSchema) :
    List (String × String) :=
  exprs.filterMap (fun e => match e with
    | .alias inner name => some (inner.output_name, name)
    | _ => none)

/-- Modelled from the spec: `resolve_exprs_to_aliases` lives in `sql::utils`,
outside the snapshot.  Per the spec, aliases referenced by the sort
expression are resolved through the alias map: a column whose name is a key
of the map is replaced by a column named by the mapped alias. -/
def resolve_exprs_to_aliases (expr : Expr) (alias_map : List (String × String))
    (_schema : DFSchema) : DFResult Expr :=
  mapColsM (fun c =>
    match alias_map.find? (fun kv => kv.1 == c.name) with
    | some kv => .ok (.column ⟨none, kv.2⟩)
    | none => .ok (.column c)) expr

/-- Embeds the inner `rewrite_sort_col` of `rewrite_sort_col_by_aggs`
(lines 387–424): at an `Aggregate`, rebase against `aggr_expr` then
`group_expr`; at a `Projection`, resolve aliases, rebase against the
projection list, renormalize, and recurse if the input is an `Aggregate`;
otherwise pass through. -/
def rewrite_sort_col (expr : Expr) (plan : LogicalPlan) : DFResult Expr :=
  match plan with
  | .Aggregate input group_expr aggr_expr _ => do
    let res ← rebase_expr expr aggr_expr input
    let res ← rebase_expr res group_expr input
    .ok res
  | .Projection input projection_expr _ => do
    let alias_map := extract_aliased_expr_names projection_expr input.schema
    let res ← resolve_exprs_to_aliases expr alias_map input.schema
    let res0 ← rebase_expr res projection_expr input
    let res ← normalize_col (unnormalize_col res0) plan
    match input with
    | .Aggregate _ _ _ _ => rewrite_sort_col res input
    | _ => .ok res
  | _ => .ok expr

/-- Embeds `rewrite_sort_col_by_aggs` (lines 386–435): first normalize the
sort expression (against the plan itself, unless the plan is a projection and
the expression is not a bare column, in which case against the projection's
input), then run the recursive rebasing. -/
def rewrite_sort_col_by_aggs (expr : Expr) (plan : LogicalPlan) : DFResult Expr := do
  let expr ← match plan with
    | .Projection input _ _ =>
      match expr with
      | .column _ => normalize_col expr plan
      | _ => normalize_col expr input
    | _ => normalize_col expr plan
  rewrite_sort_col expr plan

/-- Embeds `rewrite_sort_cols_by_aggs` (lines 359–384): apply the rebasing to
the inner expression of every `Sort` wrapper; other expressions pass through. -/
def rewrite_sort_cols_by_aggs (exprs : List Expr) (plan : LogicalPlan) :
    DFResult (List Expr) :=
  exprs.mapM (fun expr =>
    match expr with
    | .sort e asc nulls_first => do
      let e1 ← rewrite_sort_col_by_aggs e plan
      .ok (.sort e1 asc nulls_first)
    | expr => .ok expr)

/-! ## Physical plan side: optimizer hints, projection operator, stream -/

/-- Modelled from the spec: the `OptimizerHints` struct is declared outside the
snapshot (only its use in `ProjectionExec::output_hints` is present).  Fields
as the spec's data model lists them: `sort_order` an optional ordered list of
output-column positions, `approximate_sort_order` an ordered list of segments,
two flags, and the set of single-valued column positions (embedded as a list;
the code only tests membership and maps elements). -/
structure OptimizerHints where
  sort_order : Option (List Nat)
  approximate_sort_order : List (List Nat)
  approximate_sort_order_is_prefix : Bool
  approximate_sort_order_is_strict : Bool
  single_value_columns : List Nat
deriving DecidableEq, Repr

/-- Modelled from the spec: the default (empty) `OptimizerHints` value. -/
def OptimizerHints.default : OptimizerHints :=
  ⟨none, [], false, false, []⟩

/-- Embeds `Partitioning` (physical plan partitioning declaration; the
projection only passes it through). -/
inductive Partitioning where
  | RoundRobinBatch (n : Nat)
  | Hash (n : Nat)
  | UnknownPartitioning (n : Nat)
deriving DecidableEq, Repr

/-- Embeds `arrow::datatypes::Field` (physical schema field: no qualifier).
Named `ArrowField` because Lean already declares `Field`. -/
structure ArrowField where
  name : String
  data_type : DataType
  nullable : Bool
deriving DecidableEq, Repr

/-- Embeds `arrow::datatypes::Schema`. -/
structure Schema where
  fields : List ArrowField
deriving DecidableEq, Repr

/-- Embeds an Arrow array as its column of scalar values (the projection code
treats arrays opaquely apart from their length). -/
structure ArrowArray where
  values : List ScalarValue
deriving DecidableEq, Repr

/-- Embeds `Array::len`. -/
def ArrowArray.len (a : ArrowArray) : Nat := a.values.length

/-- Embeds `arrow::error::ArrowError`, restricted to the constructors the
embedded paths produce. -/
inductive ArrowError where
  | ExternalError (e : DataFusionError)
  | InvalidArgumentError (msg : String)
deriving DecidableEq, Repr

/-- Embeds `DataFusionError::into_arrow_external_error`. -/
def DataFusionError.into_arrow_external_error (e : DataFusionError) : ArrowError :=
  .ExternalError e

/-- Embeds `arrow::record_batch::RecordBatch`: a schema plus one array per
schema field. -/
structure RecordBatch where
  schema : Schema
  columns : List ArrowArray
deriving DecidableEq, Repr

/-- Embeds `RecordBatch::num_rows`: the length of the first column (0 for a
batch with no columns). -/
def RecordBatch.num_rows (b : RecordBatch) : Nat :=
  ((b.columns.head?).map ArrowArray.len).getD 0

/-- Embeds `RecordBatch::try_new` (external collaborator, arrow): requires at
least one column, one column per schema field, and all columns of equal
length.  (Arrow additionally validates column data types against the schema;
no embedded code path exercises that check.) -/
def RecordBatch.try_new (schema : Schema) (columns : List ArrowArray) :
    Except ArrowError RecordBatch :=
  if columns.isEmpty then
    .error (.InvalidArgumentError
      "at least one column must be defined to create a record batch")
  else if schema.fields.length != columns.length then
    .error (.InvalidArgumentError
      "number of columns must match number of fields in schema")
  else if !(columns.all (fun c => c.len == ((columns.head?.map ArrowArray.len).getD 0))) then
    .error (.InvalidArgumentError
      "all columns in a record batch must have the same length")
  else
    .ok ⟨schema, columns⟩

/-- Embeds `ColumnarValue`: the result of evaluating a physical expression. -/
inductive ColumnarValue where
  | Array (a : ArrowArray)
  | Scalar (v : ScalarValue)

/-- Embeds `ColumnarValue::into_array(num_rows)`: an array result is returned
as is; a scalar result is broadcast to `num_rows` rows. -/
def ColumnarValue.into_array (v : ColumnarValue) (num_rows : Nat) : ArrowArray :=
  match v with
  | .Array a => a
  | .Scalar s => ⟨List.replicate num_rows s⟩

/-- Embeds `physical_plan::expressions::Column` (a physical column reference
by name and input-schema index). -/
structure PhysicalColumn where
  name : String
  index : Nat
deriving DecidableEq, Repr

/-- Embeds the `PhysicalExpr` trait object (external collaborator, per the
spec's scalar-expression evaluation interface): `evaluate`, `data_type` and
`nullable` are the interface methods; `as_column` embeds the runtime downcast
`as_any().downcast_ref::<Column>()` that `output_hints` performs. -/
structure PhysExpr where
  as_column : Option PhysicalColumn
  data_type : Schema → DFResult DataType
  nullable : Schema → DFResult Bool
  evaluate : RecordBatch → DFResult ColumnarValue

/-- Embeds the `ExecutionPlan` trait object feeding the projection (external
collaborator): its schema, partitioning, hints, and one item sequence per
partition (`execute`). -/
structure InputPlan where
  schema : Schema
  output_partitioning : Partitioning
  output_hints : OptimizerHints
  streams : List (List (Except ArrowError RecordBatch))

/-- Embeds `ExecutionPlan::execute(partition)` on the input plan: the item
sequence of the given partition. -/
def InputPlan.execute (p : InputPlan) (partition : Nat) :
    List (Except ArrowError RecordBatch) :=
  p.streams.getD partition []

/-- Embeds `ProjectionExec` (projection.rs lines 44–52): the projection
expressions with their output names, the precomputed output schema, and the
input plan. -/
structure ProjectionExec where
  expr : List (PhysExpr × String)
  schema : Schema
  input : InputPlan

/-- Embeds `ProjectionExec::try_new` (lines 54–80): build one output field per
expression — named by the output name, typed and nulled by the expression
against the input schema — and store the resulting schema. -/
def ProjectionExec.try_new (expr : List (PhysExpr × String)) (input : InputPlan) :
    DFResult ProjectionExec := do
  let input_schema := input.schema
  let fields ← expr.mapM (fun en => do
    let dt ← en.1.data_type input_schema
    let nl ← en.1.nullable input_schema
    .ok (ArrowField.mk en.2 dt nl))
  .ok ⟨expr, ⟨fields⟩, input⟩

/-- Embeds `ProjectionExec::schema` (lines 101–103). -/
def ProjectionExec.exec_schema (p : ProjectionExec) : Schema := p.schema

/-- Embeds `ProjectionExec::output_partitioning` (lines 110–112): the input's
output partitioning, unchanged. -/
def ProjectionExec.output_partitioning (p : ProjectionExec) : Partitioning :=
  p.input.output_partitioning

/-- Embeds the `input_to_output` construction of `output_hints`
(lines 144–154): one entry per input-schema field, set to the output position
of an output expression that is exactly a bare column reference to that input
position (a later output overwrites an earlier one, matching the source
comment about picking one of several projections of the same column). -/
def ProjectionExec.input_to_output (p : ProjectionExec) : List (Option Nat) :=
  (p.expr.map (fun en => en.1.as_column)).enum.foldl
    (fun acc oc =>
      match oc.2 with
      | some c => acc.set c.index (some oc.1)
      | none => acc)
    (List.replicate p.input.schema.fields.length none)

/-- Embeds the strict `sort_order` loop of `output_hints` (lines 161–172):
push the mapped output position; skip an unmapped position that is
single-valued; stop at the first unmapped, non-single-valued position. -/
def sort_order_loop (input_to_output : List (Option Nat)) (single_value : List Nat) :
    List Nat → List Nat
  | [] => []
  | in_col :: rest =>
    match input_to_output.getD in_col none with
    | some out_col => out_col :: sort_order_loop input_to_output single_value rest
    | none =>
      if single_value.contains in_col then
        sort_order_loop input_to_output single_value rest
      else
        []

/-- Embeds the inner loop over one `approximate_sort_order` segment
(lines 179–201): `acc` is the `out_segment` accumulator; the result is the
list of segments pushed during the loop (one, on a break with a non-empty
accumulator), the final accumulator, and the updated `prefix_maintained`.
A mapped column is appended (setting `prefix_maintained` on first retention);
an unmapped single-valued column is skipped; an unmapped non-single-valued
column pushes the non-empty accumulator, clears it, resolves
`prefix_maintained` to `false` if still unset, and breaks. -/
def approx_inner (input_to_output : List (Option Nat)) (single_value : List Nat)
    (acc : List Nat) (pm : Option Bool) :
    List Nat → List (List Nat) × List Nat × Option Bool
  | [] => ([], acc, pm)
  | in_col :: rest =>
    match input_to_output.getD in_col none with
    | some out_col =>
      approx_inner input_to_output single_value (acc ++ [out_col])
        (if pm.isNone then some true else pm) rest
    | none =>
      if single_value.contains in_col then
        approx_inner input_to_output single_value acc pm rest
      else
        ((if acc.isEmpty then [] else [acc]), [],
          if pm.isNone then some false else pm)

/-- Embeds the outer loop over the `approximate_sort_order` segments
(lines 177–210): run the inner loop per segment, then resolve a still-unset
`prefix_maintained` to `false` (the whole first segment was single-valued),
then push the final non-empty `out_segment`. -/
def approx_outer (input_to_output : List (Option Nat)) (single_value : List Nat)
    (pm : Option Bool) : List (List Nat) → List (List Nat) × Option Bool
  | [] => ([], pm)
  | in_segment :: rest =>
    let (emitted, out_segment, pm1) :=
      approx_inner input_to_output single_value [] pm in_segment
    let pm2 := if pm1.isNone then some false else pm1
    let emitted2 := emitted ++ (if out_segment.isEmpty then [] else [out_segment])
    let (rest_emitted, pm3) := approx_outer input_to_output single_value pm2 rest
    (emitted2 ++ rest_emitted, pm3)

/-- Embeds `ProjectionExec::output_hints` (lines 137–221): early return of the
default hints for default input hints, the `input_to_output` partial map,
mapped single-value columns, the strict sort-order walk, the segmented
approximate walk with `prefix_maintained`, and the final assembly. -/
def ProjectionExec.output_hints (p : ProjectionExec) : OptimizerHints :=
  let input_hints := p.input.output_hints
  if input_hints = OptimizerHints.default then
    OptimizerHints.default
  else
    let input_to_output := p.input_to_output
    let single_value_columns :=
      input_hints.single_value_columns.filterMap (fun i => input_to_output.getD i none)
    let sort_order :=
      match input_hints.sort_order with
      | some in_so => sort_order_loop input_to_output input_hints.single_value_columns in_so
      | none => []
    let (approximate_sort_order, prefix_maintained) :=
      approx_outer input_to_output input_hints.single_value_columns none
        input_hints.approximate_sort_order
    ⟨if sort_order.isEmpty then none else some sort_order,
      approximate_sort_order,
      OptimizerHints.approximate_sort_order_is_prefix input_hints
        && prefix_maintained == some true,
      OptimizerHints.approximate_sort_order_is_strict input_hints,
      single_value_columns⟩

/-- Embeds `batch_project` (lines 249–263): evaluate every expression against
the batch, materialize each result to an array of the batch's row count, and
assemble a new batch under the projection's schema; an evaluation error is
converted to an external Arrow error. -/
def batch_project (batch : RecordBatch) (expressions : List PhysExpr)
    (schema : Schema) : Except ArrowError RecordBatch :=
  match expressions.mapM
      (fun expr => (expr.evaluate batch).map
        (fun v => v.into_array batch.num_rows)) with
  | .error e => .error e.into_arrow_external_error
  | .ok arrays => RecordBatch.try_new schema arrays

/-- Embeds `ProjectionStream` (lines 266–270): the output schema, the bare
expressions, and the remaining input item sequence. -/
structure ProjectionStream where
  schema : Schema
  expr : List PhysExpr
  input : List (Except ArrowError RecordBatch)

/-- Embeds `ProjectionStream::poll_next` (lines 275–283) in a synchronous
pull model: polling the exhausted input yields `none`; otherwise the next
input item is mapped — an ok batch through `batch_project`, any other item
unchanged — and the stream advances past it. -/
def ProjectionStream.poll_next (s : ProjectionStream) :
    Option (Except ArrowError RecordBatch) × ProjectionStream :=
  match s.input with
  | [] => (none, s)
  | x :: rest =>
    (some (match x with
      | .ok batch => batch_project batch s.expr s.schema
      | .error e => .error e),
      ⟨s.schema, s.expr, rest⟩)

/-- Specification-side driver: the full output item sequence of the stream,
obtained by polling `poll_next` until it yields `none`. -/
def ProjectionStream.run (s : ProjectionStream) :
    List (Except ArrowError RecordBatch) :=
  match h : s.poll_next with
  | (none, _) => []
  | (some item, s1) => item :: s1.run
termination_by s.input.length
decreasing_by
  simp only [ProjectionStream.poll_next] at h
  cases hin : s.input with
  | nil => rw [hin] at h; simp at h
  | cons x rest =>
    rw [hin] at h
    simp only [Prod.mk.injEq] at h
    cases h.2
    simp [hin]

/-- Embeds `ProjectionExec::execute` (lines 129–135): wrap the input
partition's item sequence in a `ProjectionStream` carrying the output schema
and the bare expressions. -/
def ProjectionExec.execute (p : ProjectionExec) (partition : Nat) :
    ProjectionStream :=
  ⟨p.schema, p.expr.map Prod.fst, p.input.execute partition⟩

/-! ## Claim-side specification functions for the hint propagation -/

/-- Specification-side statement of the strict sort-order propagation, worded
as the claim walks it: visit the input sort positions in order, emit the
mapped output position, skip an unmapped position listed among the input's
single-value columns, and truncate at the first position that is both
unmapped and not single-valued. -/
def claimed_sort_order_walk (input_to_output : List (Option Nat))
    (single_value : List Nat) : List Nat → List Nat
  | [] => []
  | p :: rest =>
    match input_to_output.getD p none with
    | some o => o :: claimed_sort_order_walk input_to_output single_value rest
    | none =>
      if single_value.contains p then
        claimed_sort_order_walk input_to_output single_value rest
      else
        []

/-- Specification-side statement of one input segment's propagation, worded as
claim C3 describes it: a single-value unmapped column is skipped, a mapped
column is appended to the current output segment, and an unmapped
non-single-value column closes the current output segment (emitting it if
non-empty) and starts a new one, so the walk continues within the same input
segment. -/
def claimed_approx_segment_walk (input_to_output : List (Option Nat))
    (single_value : List Nat) (cur : List Nat) : List Nat → List (List Nat)
  | [] => if cur.isEmpty then [] else [cur]
  | p :: rest =>
    match input_to_output.getD p none with
    | some o => claimed_approx_segment_walk input_to_output single_value (cur ++ [o]) rest
    | none =>
      if single_value.contains p then
        claimed_approx_segment_walk input_to_output single_value cur rest
      else
        (if cur.isEmpty then [] else [cur]) ++
          claimed_approx_segment_walk input_to_output single_value [] rest

/-- Specification-side statement of the whole segmented propagation, worded as
claim C3 describes it: per input segment, the walk above; segments
concatenated in order. -/
def claimed_approx_segments (input_to_output : List (Option Nat))
    (single_value : List Nat) (segments : List (List Nat)) : List (List Nat) :=
  (segments.map (claimed_approx_segment_walk input_to_output single_value [])).join

/-- Specification-side statement of one input segment's propagation as the
code actually behaves (the amended claim C3): the mapped prefix of the
segment, where single-value unmapped columns are skipped and the first
unmapped non-single-value column ends the segment, discarding the rest of the
input segment. -/
def amended_approx_segment (input_to_output : List (Option Nat))
    (single_value : List Nat) : List Nat → List Nat
  | [] => []
  | p :: rest =>
    match input_to_output.getD p none with
    | some o => o :: amended_approx_segment input_to_output single_value rest
    | none =>
      if single_value.contains p then
        amended_approx_segment input_to_output single_value rest
      else
        []

/-- Specification-side statement of the whole segmented propagation as the
code actually behaves (the amended claim C3): each input segment contributes
its mapped prefix, and empty contributions are dropped. -/
def amended_approx_segments (input_to_output : List (Option Nat))
    (single_value : List Nat) (segments : List (List Nat)) : List (List Nat) :=
  (segments.map (amended_approx_segment input_to_output single_value)).filter
    (fun s => !s.isEmpty)

/-- Specification-side discriminator: is this expression a bare `Column` node?
(The embedding of the source's `if let Expr::Column(c) = expr` tests.) -/
def Expr.is_column : Expr → Bool
  | .column _ => true
  | _ => false

/-! ## Helper lemmas about `Except` -/

theorem except_bind_eq_ok {ε α β : Type} (x : Except ε α) (g : α → Except ε β) (b : β) :
    (x >>= g) = .ok b ↔ ∃ a, x = .ok a ∧ g a = .ok b := by
  cases x <;> simp [Bind.bind, Except.bind]

theorem except_bind_eq_error {ε α β : Type} (x : Except ε α) (g : α → Except ε β)
    (m : ε) :
    (x >>= g) = .error m ↔ x = .error m ∨ ∃ a, x = .ok a ∧ g a = .error m := by
  cases x <;> simp [Bind.bind, Except.bind]

theorem except_map_eq_ok {ε α β : Type} (x : Except ε α) (g : α → β) (b : β) :
    (x.map g) = .ok b ↔ ∃ a, x = .ok a ∧ g a = b := by
  cases x <;> simp [Except.map]

theorem except_map_eq_error {ε α β : Type} (x : Except ε α) (g : α → β) (m : ε) :
    (x.map g) = .error m ↔ x = .error m := by
  cases x <;> simp [Except.map]

theorem except_map_ok {ε α β : Type} (g : α → β) (a : α) :
    (Except.ok a : Except ε α).map g = .ok (g a) := rfl

theorem except_bind_pure {ε α : Type} (x : Except ε α) :
    (x >>= fun a => (.ok a : Except ε α)) = x := by
  cases x <;> simp [Bind.bind, Except.bind]

/-! ## Claim C1: the rewrite dispatch -/

/-- C1: for every expression `e` and every rewriter, `Expr::rewrite`
dispatches on the result of `pre_visit(e)`: `Mutate` calls `mutate`
immediately on `e` itself and returns its result without visiting children;
`Stop` returns `e` unchanged without visiting children; `Skip` rewrites all
children (`rewriteChildren`) but does not call `mutate` on the rebuilt node;
`Continue` rewrites all children and then calls `mutate` on the rebuilt node.
An error from `pre_visit` aborts the rewrite. -/
theorem claim1_rewrite_dispatch {σ : Type} (rewriter : ExprRewriter σ) (s : σ)
    (e : Expr) :
    Expr.rewrite rewriter s e =
      (match rewriter.pre_visit s e with
      | .error m => .error m
      | .ok (s0, .Mutate) => rewriter.mutate s0 e
      | .ok (s0, .Stop) => .ok (s0, e)
      | .ok (s0, .Skip) => rewriteChildren rewriter s0 e
      | .ok (s0, .Continue) =>
          rewriteChildren rewriter s0 e >>= fun se => rewriter.mutate se.1 se.2) := by
  rw [Expr.rewrite]
  cases hpv : rewriter.pre_visit s e with
  | error m => simp [Bind.bind, Except.bind]
  | ok p =>
    obtain ⟨s0, r⟩ := p
    cases r <;> simp [Bind.bind, Except.bind, except_bind_pure] <;>
      cases rewriteChildren rewriter s0 e <;> rfl

/-! ## Bridging the rewrite protocol to the column-map specification -/

theorem except_ok_bind {ε α β : Type} (a : α) (g : α → Except ε β) :
    ((.ok a : Except ε α) >>= g) = g a := rfl

theorem except_error_bind {ε α β : Type} (m : ε) (g : α → Except ε β) :
    ((.error m : Except ε α) >>= g) = .error m := rfl

theorem except_map_as_bind {ε α β : Type} (x : Except ε α) (g : α → β) :
    x.map g = x >>= fun a => .ok (g a) := by
  cases x <;> rfl

theorem except_bind_assoc {ε α β γ : Type} (x : Except ε α) (g : α → Except ε β)
    (h : β → Except ε γ) :
    ((x >>= g) >>= h) = x >>= fun a => g a >>= h := by
  cases x <;> rfl

theorem rewrite_step {σ : Type} (rewriter : ExprRewriter σ) (s : σ) (e : Expr) :
    Expr.rewrite rewriter s e =
      rewriter.pre_visit s e >>= fun sr =>
        match sr.2 with
        | .Mutate => rewriter.mutate sr.1 e
        | .Stop => .ok (sr.1, e)
        | .Skip => rewriteChildren rewriter sr.1 e
        | .Continue =>
          rewriteChildren rewriter sr.1 e >>= fun se => rewriter.mutate se.1 se.2 := by
  rw [Expr.rewrite]
  cases hpv : rewriter.pre_visit s e with
  | error m => rfl
  | ok p =>
    obtain ⟨s0, r⟩ := p
    cases r <;> simp [except_ok_bind, except_bind_pure] <;>
      cases rewriteChildren rewriter s0 e <;> rfl

theorem column_rewriter_pre_visit (f : Column → DFResult Expr) (s : Unit) (e : Expr) :
    (column_rewriter f).pre_visit s e = .ok (s, .Continue) := rfl

theorem column_rewriter_mutate_column (f : Column → DFResult Expr) (s : Unit)
    (c : Column) :
    (column_rewriter f).mutate s (.column c) = (f c).map (fun e1 => (s, e1)) := rfl

theorem column_rewriter_mutate_not_column (f : Column → DFResult Expr) (s : Unit)
    (e : Expr) (h : e.is_column = false) :
    (column_rewriter f).mutate s e = .ok (s, e) := by
  cases e <;> first
    | rfl
    | simp [Expr.is_column] at h

theorem rewrite_cr_step (f : Column → DFResult Expr) (s : Unit) (e : Expr) :
    Expr.rewrite (column_rewriter f) s e =
      rewriteChildren (column_rewriter f) s e >>= fun se =>
        (column_rewriter f).mutate se.1 se.2 := by
  rw [rewrite_step, column_rewriter_pre_visit, except_ok_bind]

/-- The rewriters built from `column_rewriter` agree with the specification
recursion `mapColsM`: state is never changed and the tree is rewritten by
applying `f` at every `Column` node. -/
theorem rewrite_column_rewriter_eq (f : Column → DFResult Expr) :
    ∀ e : Expr, ∀ s : Unit,
      Expr.rewrite (column_rewriter f) s e = (mapColsM f e).map (fun e1 => (s, e1)) := by
  intro e0
  refine mapColsM.induct f
    (fun e => ∀ s : Unit,
      Expr.rewrite (column_rewriter f) s e = (mapColsM f e).map (fun e1 => (s, e1)))
    (fun v => ∀ s : Unit,
      rewrite_vec_vec (column_rewriter f) s v =
        (mapColsMListList f v).map (fun l => (s, l)))
    (fun v => ∀ s : Unit,
      rewrite_vec (column_rewriter f) s v = (mapColsMList f v).map (fun l => (s, l)))
    (fun v => ∀ s : Unit,
      rewrite_within_group (column_rewriter f) s v =
        (mapColsMOptList f v).map (fun l => (s, l)))
    (fun v => ∀ s : Unit,
      rewrite_when_then (column_rewriter f) s v =
        (mapColsMPairs f v).map (fun l => (s, l)))
    (fun v => ∀ s : Unit,
      rewrite_option_box (column_rewriter f) s v =
        (mapColsMOpt f v).map (fun l => (s, l)))
    ?_ ?_ ?_ ?_ ?_ ?_ ?_ ?_ ?_ ?_ ?_ ?_ ?_ ?_ ?_ ?_ ?_ ?_ ?_ ?_ ?_ ?_ ?_ ?_ ?_ ?_ ?_ ?_ ?_ ?_ ?_ ?_ ?_ ?_ ?_ ?_ ?_ ?_ ?_ ?_ ?_ ?_ ?_ e0
  · intro expr name ih s
    rw [rewrite_cr_step]
    simp only [rewriteChildren, mapColsM]
    simp [ih, except_map_as_bind, except_bind_assoc, except_ok_bind, except_error_bind,
      column_rewriter_mutate_column, column_rewriter_mutate_not_column, Expr.is_column]
  · intro c s
    rw [rewrite_cr_step]
    simp only [rewriteChildren, mapColsM]
    simp [except_map_as_bind, except_bind_assoc, except_ok_bind, except_error_bind,
      column_rewriter_mutate_column, column_rewriter_mutate_not_column, Expr.is_column]
  · intro ty c s
    rw [rewrite_cr_step]
    simp only [rewriteChildren, mapColsM]
    simp [except_map_as_bind, except_bind_assoc, except_ok_bind, except_error_bind,
      column_rewriter_mutate_column, column_rewriter_mutate_not_column, Expr.is_column]
  · intro ty names s
    rw [rewrite_cr_step]
    simp only [rewriteChildren, mapColsM]
    simp [except_map_as_bind, except_bind_assoc, except_ok_bind, except_error_bind,
      column_rewriter_mutate_column, column_rewriter_mutate_not_column, Expr.is_column]
  · intro value s
    rw [rewrite_cr_step]
    simp only [rewriteChildren, mapColsM]
    simp [except_map_as_bind, except_bind_assoc, except_ok_bind, except_error_bind,
      column_rewriter_mutate_column, column_rewriter_mutate_not_column, Expr.is_column]
  · intro left op right ihl ihr s
    rw [rewrite_cr_step]
    simp only [rewriteChildren, mapColsM]
    simp [ihl, ihr, except_map_as_bind, except_bind_assoc, except_ok_bind, except_error_bind,
      column_rewriter_mutate_column, column_rewriter_mutate_not_column, Expr.is_column]
  · intro left op right all ihl ihr s
    rw [rewrite_cr_step]
    simp only [rewriteChildren, mapColsM]
    simp [ihl, ihr, except_map_as_bind, except_bind_assoc, except_ok_bind, except_error_bind,
      column_rewriter_mutate_column, column_rewriter_mutate_not_column, Expr.is_column]
  · intro negated expr pattern escape_char ihe ihp s
    rw [rewrite_cr_step]
    simp only [rewriteChildren, mapColsM]
    simp [ihe, ihp, except_map_as_bind, except_bind_assoc, except_ok_bind, except_error_bind,
      column_rewriter_mutate_column, column_rewriter_mutate_not_column, Expr.is_column]
  · intro negated expr pattern escape_char ihe ihp s
    rw [rewrite_cr_step]
    simp only [rewriteChildren, mapColsM]
    simp [ihe, ihp, except_map_as_bind, except_bind_assoc, except_ok_bind, except_error_bind,
      column_rewriter_mutate_column, column_rewriter_mutate_not_column, Expr.is_column]
  · intro negated expr pattern escape_char ihe ihp s
    rw [rewrite_cr_step]
    simp only [rewriteChildren, mapColsM]
    simp [ihe, ihp, except_map_as_bind, except_bind_assoc, except_ok_bind, except_error_bind,
      column_rewriter_mutate_column, column_rewriter_mutate_not_column, Expr.is_column]
  · intro expr ih s
    rw [rewrite_cr_step]
    simp only [rewriteChildren, mapColsM]
    simp [ih, except_map_as_bind, except_bind_assoc, except_ok_bind, except_error_bind,
      column_rewriter_mutate_column, column_rewriter_mutate_not_column, Expr.is_column]
  · intro expr ih s
    rw [rewrite_cr_step]
    simp only [rewriteChildren, mapColsM]
    simp [ih, except_map_as_bind, except_bind_assoc, except_ok_bind, except_error_bind,
      column_rewriter_mutate_column, column_rewriter_mutate_not_column, Expr.is_column]
  · intro expr ih s
    rw [rewrite_cr_step]
    simp only [rewriteChildren, mapColsM]
    simp [ih, except_map_as_bind, except_bind_assoc, except_ok_bind, except_error_bind,
      column_rewriter_mutate_column, column_rewriter_mutate_not_column, Expr.is_column]
  · intro expr ih s
    rw [rewrite_cr_step]
    simp only [rewriteChildren, mapColsM]
    simp [ih, except_map_as_bind, except_bind_assoc, except_ok_bind, except_error_bind,
      column_rewriter_mutate_column, column_rewriter_mutate_not_column, Expr.is_column]
  · intro expr low high negated ihe ihl ihh s
    rw [rewrite_cr_step]
    simp only [rewriteChildren, mapColsM]
    simp [ihe, ihl, ihh, except_map_as_bind, except_bind_assoc, except_ok_bind, except_error_bind,
      column_rewriter_mutate_column, column_rewriter_mutate_not_column, Expr.is_column]
  · intro expr when_then_expr else_expr ihe ihw ihel s
    rw [rewrite_cr_step]
    simp only [rewriteChildren, mapColsM]
    simp [ihe, ihw, ihel, except_map_as_bind, except_bind_assoc, except_ok_bind, except_error_bind,
      column_rewriter_mutate_column, column_rewriter_mutate_not_column, Expr.is_column]
  · intro expr data_type ih s
    rw [rewrite_cr_step]
    simp only [rewriteChildren, mapColsM]
    simp [ih, except_map_as_bind, except_bind_assoc, except_ok_bind, except_error_bind,
      column_rewriter_mutate_column, column_rewriter_mutate_not_column, Expr.is_column]
  · intro expr data_type ih s
    rw [rewrite_cr_step]
    simp only [rewriteChildren, mapColsM]
    simp [ih, except_map_as_bind, except_bind_assoc, except_ok_bind, except_error_bind,
      column_rewriter_mutate_column, column_rewriter_mutate_not_column, Expr.is_column]
  · intro expr asc nulls_first ih s
    rw [rewrite_cr_step]
    simp only [rewriteChildren, mapColsM]
    simp [ih, except_map_as_bind, except_bind_assoc, except_ok_bind, except_error_bind,
      column_rewriter_mutate_column, column_rewriter_mutate_not_column, Expr.is_column]
  · intro args fn ih s
    rw [rewrite_cr_step]
    simp only [rewriteChildren, mapColsM]
    simp [ih, except_map_as_bind, except_bind_assoc, except_ok_bind, except_error_bind,
      column_rewriter_mutate_column, column_rewriter_mutate_not_column, Expr.is_column]
  · intro args fn ih s
    rw [rewrite_cr_step]
    simp only [rewriteChildren, mapColsM]
    simp [ih, except_map_as_bind, except_bind_assoc, except_ok_bind, except_error_bind,
      column_rewriter_mutate_column, column_rewriter_mutate_not_column, Expr.is_column]
  · intro args fn ih s
    rw [rewrite_cr_step]
    simp only [rewriteChildren, mapColsM]
    simp [ih, except_map_as_bind, except_bind_assoc, except_ok_bind, except_error_bind,
      column_rewriter_mutate_column, column_rewriter_mutate_not_column, Expr.is_column]
  · intro args fn partition_by order_by window_frame iha ihp iho s
    rw [rewrite_cr_step]
    simp only [rewriteChildren, mapColsM]
    simp [iha, ihp, iho, except_map_as_bind, except_bind_assoc, except_ok_bind, except_error_bind,
      column_rewriter_mutate_column, column_rewriter_mutate_not_column, Expr.is_column]
  · intro args fn distinct within_group ihw iha s
    rw [rewrite_cr_step]
    simp only [rewriteChildren, mapColsM]
    simp [ihw, iha, except_map_as_bind, except_bind_assoc, except_ok_bind, except_error_bind,
      column_rewriter_mutate_column, column_rewriter_mutate_not_column, Expr.is_column]
  · intro exprs ih s
    rw [rewrite_cr_step]
    simp only [rewriteChildren, mapColsM]
    simp [ih, except_map_as_bind, except_bind_assoc, except_ok_bind, except_error_bind,
      column_rewriter_mutate_column, column_rewriter_mutate_not_column, Expr.is_column]
  · intro exprs ih s
    rw [rewrite_cr_step]
    simp only [rewriteChildren, mapColsM]
    simp [ih, except_map_as_bind, except_bind_assoc, except_ok_bind, except_error_bind,
      column_rewriter_mutate_column, column_rewriter_mutate_not_column, Expr.is_column]
  · intro lists ih s
    rw [rewrite_cr_step]
    simp only [rewriteChildren, mapColsM]
    simp [ih, except_map_as_bind, except_bind_assoc, except_ok_bind, except_error_bind,
      column_rewriter_mutate_column, column_rewriter_mutate_not_column, Expr.is_column]
  · intro args fn ih s
    rw [rewrite_cr_step]
    simp only [rewriteChildren, mapColsM]
    simp [ih, except_map_as_bind, except_bind_assoc, except_ok_bind, except_error_bind,
      column_rewriter_mutate_column, column_rewriter_mutate_not_column, Expr.is_column]
  · intro expr list negated ihe ihl s
    rw [rewrite_cr_step]
    simp only [rewriteChildren, mapColsM]
    simp [ihe, ihl, except_map_as_bind, except_bind_assoc, except_ok_bind, except_error_bind,
      column_rewriter_mutate_column, column_rewriter_mutate_not_column, Expr.is_column]
  · intro expr subquery negated ihe ihq s
    rw [rewrite_cr_step]
    simp only [rewriteChildren, mapColsM]
    simp [ihe, ihq, except_map_as_bind, except_bind_assoc, except_ok_bind, except_error_bind,
      column_rewriter_mutate_column, column_rewriter_mutate_not_column, Expr.is_column]
  · intro s
    rw [rewrite_cr_step]
    simp only [rewriteChildren, mapColsM]
    simp [except_map_as_bind, except_bind_assoc, except_ok_bind, except_error_bind,
      column_rewriter_mutate_column, column_rewriter_mutate_not_column, Expr.is_column]
  · intro qualifier s
    rw [rewrite_cr_step]
    simp only [rewriteChildren, mapColsM]
    simp [except_map_as_bind, except_bind_assoc, except_ok_bind, except_error_bind,
      column_rewriter_mutate_column, column_rewriter_mutate_not_column, Expr.is_column]
  · intro expr key ihe ihk s
    rw [rewrite_cr_step]
    simp only [rewriteChildren, mapColsM]
    simp [ihe, ihk, except_map_as_bind, except_bind_assoc, except_ok_bind, except_error_bind,
      column_rewriter_mutate_column, column_rewriter_mutate_not_column, Expr.is_column]
  · intro s
    simp [rewrite_option_box, mapColsMOpt, except_map_as_bind, except_bind_assoc, except_ok_bind, except_error_bind,
      column_rewriter_mutate_column, column_rewriter_mutate_not_column, Expr.is_column]
  · intro e ih s
    simp only [rewrite_option_box, mapColsMOpt]
    simp [ih, except_map_as_bind, except_bind_assoc, except_ok_bind, except_error_bind,
      column_rewriter_mutate_column, column_rewriter_mutate_not_column, Expr.is_column]
  · intro s
    simp [rewrite_when_then, mapColsMPairs, except_map_as_bind, except_bind_assoc, except_ok_bind, except_error_bind,
      column_rewriter_mutate_column, column_rewriter_mutate_not_column, Expr.is_column]
  · intro w t rest ihw iht ihr s
    simp only [rewrite_when_then, mapColsMPairs]
    simp [ihw, iht, ihr, except_map_as_bind, except_bind_assoc, except_ok_bind, except_error_bind,
      column_rewriter_mutate_column, column_rewriter_mutate_not_column, Expr.is_column]
  · intro s
    simp [rewrite_vec, mapColsMList, except_map_as_bind, except_bind_assoc, except_ok_bind, except_error_bind,
      column_rewriter_mutate_column, column_rewriter_mutate_not_column, Expr.is_column]
  · intro e rest ihe ihr s
    simp only [rewrite_vec, mapColsMList]
    simp [ihe, ihr, except_map_as_bind, except_bind_assoc, except_ok_bind, except_error_bind,
      column_rewriter_mutate_column, column_rewriter_mutate_not_column, Expr.is_column]
  · intro s
    simp [rewrite_within_group, mapColsMOptList, except_map_as_bind, except_bind_assoc, except_ok_bind, except_error_bind,
      column_rewriter_mutate_column, column_rewriter_mutate_not_column, Expr.is_column]
  · intro l ih s
    simp only [rewrite_within_group, mapColsMOptList]
    simp [ih, except_map_as_bind, except_bind_assoc, except_ok_bind, except_error_bind,
      column_rewriter_mutate_column, column_rewriter_mutate_not_column, Expr.is_column]
  · intro s
    simp [rewrite_vec_vec, mapColsMListList, except_map_as_bind, except_bind_assoc, except_ok_bind, except_error_bind,
      column_rewriter_mutate_column, column_rewriter_mutate_not_column, Expr.is_column]
  · intro l rest ihl ihr s
    simp only [rewrite_vec_vec, mapColsMListList]
    simp [ihl, ihr, except_map_as_bind, except_bind_assoc, except_ok_bind, except_error_bind,
      column_rewriter_mutate_column, column_rewriter_mutate_not_column, Expr.is_column]

set_option maxHeartbeats 2000000 in
/-- If a column-map rewrite fails, some column of the expression produced
exactly that error. -/
theorem mapColsM_error_mem (f : Column → DFResult Expr) :
    ∀ e : Expr, ∀ m, mapColsM f e = .error m → ∃ c ∈ e.columns, f c = .error m := by
  intro e0
  refine mapColsM.induct f
    (fun e => ∀ m, mapColsM f e = .error m → ∃ c ∈ e.columns, f c = .error m)
    (fun v => ∀ m, mapColsMListList f v = .error m →
      ∃ c ∈ Expr.columnsListList v, f c = .error m)
    (fun v => ∀ m, mapColsMList f v = .error m →
      ∃ c ∈ Expr.columnsList v, f c = .error m)
    (fun v => ∀ m, mapColsMOptList f v = .error m →
      ∃ c ∈ Expr.columnsOptList v, f c = .error m)
    (fun v => ∀ m, mapColsMPairs f v = .error m →
      ∃ c ∈ Expr.columnsPairs v, f c = .error m)
    (fun v => ∀ m, mapColsMOpt f v = .error m →
      ∃ c ∈ Expr.columnsOpt v, f c = .error m)
    ?_ ?_ ?_ ?_ ?_ ?_ ?_ ?_ ?_ ?_ ?_ ?_ ?_ ?_ ?_ ?_ ?_ ?_ ?_ ?_ ?_ ?_ ?_ ?_ ?_ ?_ ?_ ?_ ?_ ?_ ?_ ?_ ?_ ?_ ?_ ?_ ?_ ?_ ?_ ?_ ?_ ?_ ?_ e0
  · intro expr name ih m h
    simp only [mapColsM, mapColsMList, mapColsMListList, mapColsMPairs, mapColsMOpt, mapColsMOptList] at h
    try simp only [except_bind_eq_error, except_bind_eq_ok] at h
    try simp only [Expr.columns, Expr.columnsList, Expr.columnsListList, Expr.columnsPairs, Expr.columnsOpt, Expr.columnsOptList, List.mem_append]
    aesop
  · intro c m h
    simp only [mapColsM] at h
    exact ⟨c, by simp [Expr.columns], h⟩
  · intro ty c m h
    simp only [mapColsM, mapColsMList, mapColsMListList, mapColsMPairs, mapColsMOpt, mapColsMOptList] at h
    try simp only [except_bind_eq_error, except_bind_eq_ok] at h
    try simp only [Expr.columns, Expr.columnsList, Expr.columnsListList, Expr.columnsPairs, Expr.columnsOpt, Expr.columnsOptList, List.mem_append]
    aesop
  · intro ty names m h
    simp only [mapColsM, mapColsMList, mapColsMListList, mapColsMPairs, mapColsMOpt, mapColsMOptList] at h
    try simp only [except_bind_eq_error, except_bind_eq_ok] at h
    try simp only [Expr.columns, Expr.columnsList, Expr.columnsListList, Expr.columnsPairs, Expr.columnsOpt, Expr.columnsOptList, List.mem_append]
    aesop
  · intro value m h
    simp only [mapColsM, mapColsMList, mapColsMListList, mapColsMPairs, mapColsMOpt, mapColsMOptList] at h
    try simp only [except_bind_eq_error, except_bind_eq_ok] at h
    try simp only [Expr.columns, Expr.columnsList, Expr.columnsListList, Expr.columnsPairs, Expr.columnsOpt, Expr.columnsOptList, List.mem_append]
    aesop
  · intro left op right ihl ihr m h
    simp only [mapColsM, mapColsMList, mapColsMListList, mapColsMPairs, mapColsMOpt, mapColsMOptList] at h
    try simp only [except_bind_eq_error, except_bind_eq_ok] at h
    try simp only [Expr.columns, Expr.columnsList, Expr.columnsListList, Expr.columnsPairs, Expr.columnsOpt, Expr.columnsOptList, List.mem_append]
    aesop
  · intro left op right all ihl ihr m h
    simp only [mapColsM, mapColsMList, mapColsMListList, mapColsMPairs, mapColsMOpt, mapColsMOptList] at h
    try simp only [except_bind_eq_error, except_bind_eq_ok] at h
    try simp only [Expr.columns, Expr.columnsList, Expr.columnsListList, Expr.columnsPairs, Expr.columnsOpt, Expr.columnsOptList, List.mem_append]
    aesop
  · intro negated expr pattern escape_char ihe ihp m h
    simp only [mapColsM, mapColsMList, mapColsMListList, mapColsMPairs, mapColsMOpt, mapColsMOptList] at h
    try simp only [except_bind_eq_error, except_bind_eq_ok] at h
    try simp only [Expr.columns, Expr.columnsList, Expr.columnsListList, Expr.columnsPairs, Expr.columnsOpt, Expr.columnsOptList, List.mem_append]
    aesop
  · intro negated expr pattern escape_char ihe ihp m h
    simp only [mapColsM, mapColsMList, mapColsMListList, mapColsMPairs, mapColsMOpt, mapColsMOptList] at h
    try simp only [except_bind_eq_error, except_bind_eq_ok] at h
    try simp only [Expr.columns, Expr.columnsList, Expr.columnsListList, Expr.columnsPairs, Expr.columnsOpt, Expr.columnsOptList, List.mem_append]
    aesop
  · intro negated expr pattern escape_char ihe ihp m h
    simp only [mapColsM, mapColsMList, mapColsMListList, mapColsMPairs, mapColsMOpt, mapColsMOptList] at h
    try simp only [except_bind_eq_error, except_bind_eq_ok] at h
    try simp only [Expr.columns, Expr.columnsList, Expr.columnsListList, Expr.columnsPairs, Expr.columnsOpt, Expr.columnsOptList, List.mem_append]
    aesop
  · intro expr ih m h
    simp only [mapColsM, mapColsMList, mapColsMListList, mapColsMPairs, mapColsMOpt, mapColsMOptList] at h
    try simp only [except_bind_eq_error, except_bind_eq_ok] at h
    try simp only [Expr.columns, Expr.columnsList, Expr.columnsListList, Expr.columnsPairs, Expr.columnsOpt, Expr.columnsOptList, List.mem_append]
    aesop
  · intro expr ih m h
    simp only [mapColsM, mapColsMList, mapColsMListList, mapColsMPairs, mapColsMOpt, mapColsMOptList] at h
    try simp only [except_bind_eq_error, except_bind_eq_ok] at h
    try simp only [Expr.columns, Expr.columnsList, Expr.columnsListList, Expr.columnsPairs, Expr.columnsOpt, Expr.columnsOptList, List.mem_append]
    aesop
  · intro expr ih m h
    simp only [mapColsM, mapColsMList, mapColsMListList, mapColsMPairs, mapColsMOpt, mapColsMOptList] at h
    try simp only [except_bind_eq_error, except_bind_eq_ok] at h
    try simp only [Expr.columns, Expr.columnsList, Expr.columnsListList, Expr.columnsPairs, Expr.columnsOpt, Expr.columnsOptList, List.mem_append]
    aesop
  · intro expr ih m h
    simp only [mapColsM, mapColsMList, mapColsMListList, mapColsMPairs, mapColsMOpt, mapColsMOptList] at h
    try simp only [except_bind_eq_error, except_bind_eq_ok] at h
    try simp only [Expr.columns, Expr.columnsList, Expr.columnsListList, Expr.columnsPairs, Expr.columnsOpt, Expr.columnsOptList, List.mem_append]
    aesop
  · intro expr low high negated ihe ihl ihh m h
    simp only [mapColsM, mapColsMList, mapColsMListList, mapColsMPairs, mapColsMOpt, mapColsMOptList] at h
    try simp only [except_bind_eq_error, except_bind_eq_ok] at h
    try simp only [Expr.columns, Expr.columnsList, Expr.columnsListList, Expr.columnsPairs, Expr.columnsOpt, Expr.columnsOptList, List.mem_append]
    aesop
  · intro expr when_then_expr else_expr ihe ihw ihel m h
    simp only [mapColsM, mapColsMList, mapColsMListList, mapColsMPairs, mapColsMOpt, mapColsMOptList] at h
    try simp only [except_bind_eq_error, except_bind_eq_ok] at h
    try simp only [Expr.columns, Expr.columnsList, Expr.columnsListList, Expr.columnsPairs, Expr.columnsOpt, Expr.columnsOptList, List.mem_append]
    aesop
  · intro expr data_type ih m h
    simp only [mapColsM, mapColsMList, mapColsMListList, mapColsMPairs, mapColsMOpt, mapColsMOptList] at h
    try simp only [except_bind_eq_error, except_bind_eq_ok] at h
    try simp only [Expr.columns, Expr.columnsList, Expr.columnsListList, Expr.columnsPairs, Expr.columnsOpt, Expr.columnsOptList, List.mem_append]
    aesop
  · intro expr data_type ih m h
    simp only [mapColsM, mapColsMList, mapColsMListList, mapColsMPairs, mapColsMOpt, mapColsMOptList] at h
    try simp only [except_bind_eq_error, except_bind_eq_ok] at h
    try simp only [Expr.columns, Expr.columnsList, Expr.columnsListList, Expr.columnsPairs, Expr.columnsOpt, Expr.columnsOptList, List.mem_append]
    aesop
  · intro expr asc nulls_first ih m h
    simp only [mapColsM, mapColsMList, mapColsMListList, mapColsMPairs, mapColsMOpt, mapColsMOptList] at h
    try simp only [except_bind_eq_error, except_bind_eq_ok] at h
    try simp only [Expr.columns, Expr.columnsList, Expr.columnsListList, Expr.columnsPairs, Expr.columnsOpt, Expr.columnsOptList, List.mem_append]
    aesop
  · intro args fn ih m h
    simp only [mapColsM, mapColsMList, mapColsMListList, mapColsMPairs, mapColsMOpt, mapColsMOptList] at h
    try simp only [except_bind_eq_error, except_bind_eq_ok] at h
    try simp only [Expr.columns, Expr.columnsList, Expr.columnsListList, Expr.columnsPairs, Expr.columnsOpt, Expr.columnsOptList, List.mem_append]
    aesop
  · intro args fn ih m h
    simp only [mapColsM, mapColsMList, mapColsMListList, mapColsMPairs, mapColsMOpt, mapColsMOptList] at h
    try simp only [except_bind_eq_error, except_bind_eq_ok] at h
    try simp only [Expr.columns, Expr.columnsList, Expr.columnsListList, Expr.columnsPairs, Expr.columnsOpt, Expr.columnsOptList, List.mem_append]
    aesop
  · intro args fn ih m h
    simp only [mapColsM, mapColsMList, mapColsMListList, mapColsMPairs, mapColsMOpt, mapColsMOptList] at h
    try simp only [except_bind_eq_error, except_bind_eq_ok] at h
    try simp only [Expr.columns, Expr.columnsList, Expr.columnsListList, Expr.columnsPairs, Expr.columnsOpt, Expr.columnsOptList, List.mem_append]
    aesop
  · intro args fn partition_by order_by window_frame iha ihp iho m h
    simp only [mapColsM, mapColsMList, mapColsMListList, mapColsMPairs, mapColsMOpt, mapColsMOptList] at h
    try simp only [except_bind_eq_error, except_bind_eq_ok] at h
    try simp only [Expr.columns, Expr.columnsList, Expr.columnsListList, Expr.columnsPairs, Expr.columnsOpt, Expr.columnsOptList, List.mem_append]
    aesop
  · intro args fn distinct within_group ihw iha m h
    simp only [mapColsM, mapColsMList, mapColsMListList, mapColsMPairs, mapColsMOpt, mapColsMOptList] at h
    try simp only [except_bind_eq_error, except_bind_eq_ok] at h
    try simp only [Expr.columns, Expr.columnsList, Expr.columnsListList, Expr.columnsPairs, Expr.columnsOpt, Expr.columnsOptList, List.mem_append]
    aesop
  · intro exprs ih m h
    simp only [mapColsM, mapColsMList, mapColsMListList, mapColsMPairs, mapColsMOpt, mapColsMOptList] at h
    try simp only [except_bind_eq_error, except_bind_eq_ok] at h
    try simp only [Expr.columns, Expr.columnsList, Expr.columnsListList, Expr.columnsPairs, Expr.columnsOpt, Expr.columnsOptList, List.mem_append]
    aesop
  · intro exprs ih m h
    simp only [mapColsM, mapColsMList, mapColsMListList, mapColsMPairs, mapColsMOpt, mapColsMOptList] at h
    try simp only [except_bind_eq_error, except_bind_eq_ok] at h
    try simp only [Expr.columns, Expr.columnsList, Expr.columnsListList, Expr.columnsPairs, Expr.columnsOpt, Expr.columnsOptList, List.mem_append]
    aesop
  · intro lists ih m h
    simp only [mapColsM, mapColsMList, mapColsMListList, mapColsMPairs, mapColsMOpt, mapColsMOptList] at h
    try simp only [except_bind_eq_error, except_bind_eq_ok] at h
    try simp only [Expr.columns, Expr.columnsList, Expr.columnsListList, Expr.columnsPairs, Expr.columnsOpt, Expr.columnsOptList, List.mem_append]
    aesop
  · intro args fn ih m h
    simp only [mapColsM, mapColsMList, mapColsMListList, mapColsMPairs, mapColsMOpt, mapColsMOptList] at h
    try simp only [except_bind_eq_error, except_bind_eq_ok] at h
    try simp only [Expr.columns, Expr.columnsList, Expr.columnsListList, Expr.columnsPairs, Expr.columnsOpt, Expr.columnsOptList, List.mem_append]
    aesop
  · intro expr list negated ihe ihl m h
    simp only [mapColsM, mapColsMList, mapColsMListList, mapColsMPairs, mapColsMOpt, mapColsMOptList] at h
    try simp only [except_bind_eq_error, except_bind_eq_ok] at h
    try simp only [Expr.columns, Expr.columnsList, Expr.columnsListList, Expr.columnsPairs, Expr.columnsOpt, Expr.columnsOptList, List.mem_append]
    aesop
  · intro expr subquery negated ihe ihq m h
    simp only [mapColsM, mapColsMList, mapColsMListList, mapColsMPairs, mapColsMOpt, mapColsMOptList] at h
    try simp only [except_bind_eq_error, except_bind_eq_ok] at h
    try simp only [Expr.columns, Expr.columnsList, Expr.columnsListList, Expr.columnsPairs, Expr.columnsOpt, Expr.columnsOptList, List.mem_append]
    aesop
  · intro m h
    simp only [mapColsM, mapColsMList, mapColsMListList, mapColsMPairs, mapColsMOpt, mapColsMOptList] at h
    try simp only [except_bind_eq_error, except_bind_eq_ok] at h
    try simp only [Expr.columns, Expr.columnsList, Expr.columnsListList, Expr.columnsPairs, Expr.columnsOpt, Expr.columnsOptList, List.mem_append]
    aesop
  · intro qualifier m h
    simp only [mapColsM, mapColsMList, mapColsMListList, mapColsMPairs, mapColsMOpt, mapColsMOptList] at h
    try simp only [except_bind_eq_error, except_bind_eq_ok] at h
    try simp only [Expr.columns, Expr.columnsList, Expr.columnsListList, Expr.columnsPairs, Expr.columnsOpt, Expr.columnsOptList, List.mem_append]
    aesop
  · intro expr key ihe ihk m h
    simp only [mapColsM, mapColsMList, mapColsMListList, mapColsMPairs, mapColsMOpt, mapColsMOptList] at h
    try simp only [except_bind_eq_error, except_bind_eq_ok] at h
    try simp only [Expr.columns, Expr.columnsList, Expr.columnsListList, Expr.columnsPairs, Expr.columnsOpt, Expr.columnsOptList, List.mem_append]
    aesop
  · intro m h
    simp only [mapColsM, mapColsMList, mapColsMListList, mapColsMPairs, mapColsMOpt, mapColsMOptList] at h
    try simp only [except_bind_eq_error, except_bind_eq_ok] at h
    try simp only [Expr.columns, Expr.columnsList, Expr.columnsListList, Expr.columnsPairs, Expr.columnsOpt, Expr.columnsOptList, List.mem_append]
    aesop
  · intro e ih m h
    simp only [mapColsM, mapColsMList, mapColsMListList, mapColsMPairs, mapColsMOpt, mapColsMOptList] at h
    try simp only [except_bind_eq_error, except_bind_eq_ok] at h
    try simp only [Expr.columns, Expr.columnsList, Expr.columnsListList, Expr.columnsPairs, Expr.columnsOpt, Expr.columnsOptList, List.mem_append]
    aesop
  · intro m h
    simp only [mapColsM, mapColsMList, mapColsMListList, mapColsMPairs, mapColsMOpt, mapColsMOptList] at h
    try simp only [except_bind_eq_error, except_bind_eq_ok] at h
    try simp only [Expr.columns, Expr.columnsList, Expr.columnsListList, Expr.columnsPairs, Expr.columnsOpt, Expr.columnsOptList, List.mem_append]
    aesop
  · intro w t rest ihw iht ihr m h
    simp only [mapColsM, mapColsMList, mapColsMListList, mapColsMPairs, mapColsMOpt, mapColsMOptList] at h
    try simp only [except_bind_eq_error, except_bind_eq_ok] at h
    try simp only [Expr.columns, Expr.columnsList, Expr.columnsListList, Expr.columnsPairs, Expr.columnsOpt, Expr.columnsOptList, List.mem_append]
    aesop
  · intro m h
    simp only [mapColsM, mapColsMList, mapColsMListList, mapColsMPairs, mapColsMOpt, mapColsMOptList] at h
    try simp only [except_bind_eq_error, except_bind_eq_ok] at h
    try simp only [Expr.columns, Expr.columnsList, Expr.columnsListList, Expr.columnsPairs, Expr.columnsOpt, Expr.columnsOptList, List.mem_append]
    aesop
  · intro e rest ihe ihr m h
    simp only [mapColsM, mapColsMList, mapColsMListList, mapColsMPairs, mapColsMOpt, mapColsMOptList] at h
    try simp only [except_bind_eq_error, except_bind_eq_ok] at h
    try simp only [Expr.columns, Expr.columnsList, Expr.columnsListList, Expr.columnsPairs, Expr.columnsOpt, Expr.columnsOptList, List.mem_append]
    aesop
  · intro m h
    simp only [mapColsM, mapColsMList, mapColsMListList, mapColsMPairs, mapColsMOpt, mapColsMOptList] at h
    try simp only [except_bind_eq_error, except_bind_eq_ok] at h
    try simp only [Expr.columns, Expr.columnsList, Expr.columnsListList, Expr.columnsPairs, Expr.columnsOpt, Expr.columnsOptList, List.mem_append]
    aesop
  · intro l ih m h
    simp only [mapColsM, mapColsMList, mapColsMListList, mapColsMPairs, mapColsMOpt, mapColsMOptList] at h
    try simp only [except_bind_eq_error, except_bind_eq_ok] at h
    try simp only [Expr.columns, Expr.columnsList, Expr.columnsListList, Expr.columnsPairs, Expr.columnsOpt, Expr.columnsOptList, List.mem_append]
    aesop
  · intro m h
    simp only [mapColsM, mapColsMList, mapColsMListList, mapColsMPairs, mapColsMOpt, mapColsMOptList] at h
    try simp only [except_bind_eq_error, except_bind_eq_ok] at h
    try simp only [Expr.columns, Expr.columnsList, Expr.columnsListList, Expr.columnsPairs, Expr.columnsOpt, Expr.columnsOptList, List.mem_append]
    aesop
  · intro l rest ihl ihr m h
    simp only [mapColsM, mapColsMList, mapColsMListList, mapColsMPairs, mapColsMOpt, mapColsMOptList] at h
    try simp only [except_bind_eq_error, except_bind_eq_ok] at h
    try simp only [Expr.columns, Expr.columnsList, Expr.columnsListList, Expr.columnsPairs, Expr.columnsOpt, Expr.columnsOptList, List.mem_append]
    aesop

set_option maxHeartbeats 2000000 in
/-- If a column-map rewrite succeeds, `f` succeeded on every column of the
expression (every column is visited). -/
theorem mapColsM_ok_cols (f : Column → DFResult Expr) :
    ∀ e : Expr, ∀ e1, mapColsM f e = .ok e1 → ∀ c ∈ e.columns, ∃ v, f c = .ok v := by
  intro e0
  refine mapColsM.induct f
    (fun e => ∀ e1, mapColsM f e = .ok e1 → ∀ c ∈ e.columns, ∃ v, f c = .ok v)
    (fun v => ∀ v1, mapColsMListList f v = .ok v1 →
      ∀ c ∈ Expr.columnsListList v, ∃ w, f c = .ok w)
    (fun v => ∀ v1, mapColsMList f v = .ok v1 →
      ∀ c ∈ Expr.columnsList v, ∃ w, f c = .ok w)
    (fun v => ∀ v1, mapColsMOptList f v = .ok v1 →
      ∀ c ∈ Expr.columnsOptList v, ∃ w, f c = .ok w)
    (fun v => ∀ v1, mapColsMPairs f v = .ok v1 →
      ∀ c ∈ Expr.columnsPairs v, ∃ w, f c = .ok w)
    (fun v => ∀ v1, mapColsMOpt f v = .ok v1 →
      ∀ c ∈ Expr.columnsOpt v, ∃ w, f c = .ok w)
    ?_ ?_ ?_ ?_ ?_ ?_ ?_ ?_ ?_ ?_ ?_ ?_ ?_ ?_ ?_ ?_ ?_ ?_ ?_ ?_ ?_ ?_ ?_ ?_ ?_ ?_ ?_ ?_ ?_ ?_ ?_ ?_ ?_ ?_ ?_ ?_ ?_ ?_ ?_ ?_ ?_ ?_ ?_ e0
  · intro expr name ih e1 h
    simp only [mapColsM, mapColsMList, mapColsMListList, mapColsMPairs, mapColsMOpt, mapColsMOptList] at h
    try simp only [except_bind_eq_ok] at h
    try simp only [Expr.columns, Expr.columnsList, Expr.columnsListList, Expr.columnsPairs, Expr.columnsOpt, Expr.columnsOptList, List.mem_append]
    aesop
  · intro c e1 h c1 hc1
    simp only [mapColsM] at h
    simp [Expr.columns] at hc1
    subst hc1
    exact ⟨e1, h⟩
  · intro ty c e1 h
    simp only [mapColsM, mapColsMList, mapColsMListList, mapColsMPairs, mapColsMOpt, mapColsMOptList] at h
    try simp only [except_bind_eq_ok] at h
    try simp only [Expr.columns, Expr.columnsList, Expr.columnsListList, Expr.columnsPairs, Expr.columnsOpt, Expr.columnsOptList, List.mem_append]
    aesop
  · intro ty names e1 h
    simp only [mapColsM, mapColsMList, mapColsMListList, mapColsMPairs, mapColsMOpt, mapColsMOptList] at h
    try simp only [except_bind_eq_ok] at h
    try simp only [Expr.columns, Expr.columnsList, Expr.columnsListList, Expr.columnsPairs, Expr.columnsOpt, Expr.columnsOptList, List.mem_append]
    aesop
  · intro value e1 h
    simp only [mapColsM, mapColsMList, mapColsMListList, mapColsMPairs, mapColsMOpt, mapColsMOptList] at h
    try simp only [except_bind_eq_ok] at h
    try simp only [Expr.columns, Expr.columnsList, Expr.columnsListList, Expr.columnsPairs, Expr.columnsOpt, Expr.columnsOptList, List.mem_append]
    aesop
  · intro left op right ihl ihr e1 h
    simp only [mapColsM, mapColsMList, mapColsMListList, mapColsMPairs, mapColsMOpt, mapColsMOptList] at h
    try simp only [except_bind_eq_ok] at h
    try simp only [Expr.columns, Expr.columnsList, Expr.columnsListList, Expr.columnsPairs, Expr.columnsOpt, Expr.columnsOptList, List.mem_append]
    aesop
  · intro left op right all ihl ihr e1 h
    simp only [mapColsM, mapColsMList, mapColsMListList, mapColsMPairs, mapColsMOpt, mapColsMOptList] at h
    try simp only [except_bind_eq_ok] at h
    try simp only [Expr.columns, Expr.columnsList, Expr.columnsListList, Expr.columnsPairs, Expr.columnsOpt, Expr.columnsOptList, List.mem_append]
    aesop
  · intro negated expr pattern escape_char ihe ihp e1 h
    simp only [mapColsM, mapColsMList, mapColsMListList, mapColsMPairs, mapColsMOpt, mapColsMOptList] at h
    try simp only [except_bind_eq_ok] at h
    try simp only [Expr.columns, Expr.columnsList, Expr.columnsListList, Expr.columnsPairs, Expr.columnsOpt, Expr.columnsOptList, List.mem_append]
    aesop
  · intro negated expr pattern escape_char ihe ihp e1 h
    simp only [mapColsM, mapColsMList, mapColsMListList, mapColsMPairs, mapColsMOpt, mapColsMOptList] at h
    try simp only [except_bind_eq_ok] at h
    try simp only [Expr.columns, Expr.columnsList, Expr.columnsListList, Expr.columnsPairs, Expr.columnsOpt, Expr.columnsOptList, List.mem_append]
    aesop
  · intro negated expr pattern escape_char ihe ihp e1 h
    simp only [mapColsM, mapColsMList, mapColsMListList, mapColsMPairs, mapColsMOpt, mapColsMOptList] at h
    try simp only [except_bind_eq_ok] at h
    try simp only [Expr.columns, Expr.columnsList, Expr.columnsListList, Expr.columnsPairs, Expr.columnsOpt, Expr.columnsOptList, List.mem_append]
    aesop
  · intro expr ih e1 h
    simp only [mapColsM, mapColsMList, mapColsMListList, mapColsMPairs, mapColsMOpt, mapColsMOptList] at h
    try simp only [except_bind_eq_ok] at h
    try simp only [Expr.columns, Expr.columnsList, Expr.columnsListList, Expr.columnsPairs, Expr.columnsOpt, Expr.columnsOptList, List.mem_append]
    aesop
  · intro expr ih e1 h
    simp only [mapColsM, mapColsMList, mapColsMListList, mapColsMPairs, mapColsMOpt, mapColsMOptList] at h
    try simp only [except_bind_eq_ok] at h
    try simp only [Expr.columns, Expr.columnsList, Expr.columnsListList, Expr.columnsPairs, Expr.columnsOpt, Expr.columnsOptList, List.mem_append]
    aesop
  · intro expr ih e1 h
    simp only [mapColsM, mapColsMList, mapColsMListList, mapColsMPairs, mapColsMOpt, mapColsMOptList] at h
    try simp only [except_bind_eq_ok] at h
    try simp only [Expr.columns, Expr.columnsList, Expr.columnsListList, Expr.columnsPairs, Expr.columnsOpt, Expr.columnsOptList, List.mem_append]
    aesop
  · intro expr ih e1 h
    simp only [mapColsM, mapColsMList, mapColsMListList, mapColsMPairs, mapColsMOpt, mapColsMOptList] at h
    try simp only [except_bind_eq_ok] at h
    try simp only [Expr.columns, Expr.columnsList, Expr.columnsListList, Expr.columnsPairs, Expr.columnsOpt, Expr.columnsOptList, List.mem_append]
    aesop
  · intro expr low high negated ihe ihl ihh e1 h
    simp only [mapColsM, mapColsMList, mapColsMListList, mapColsMPairs, mapColsMOpt, mapColsMOptList] at h
    try simp only [except_bind_eq_ok] at h
    try simp only [Expr.columns, Expr.columnsList, Expr.columnsListList, Expr.columnsPairs, Expr.columnsOpt, Expr.columnsOptList, List.mem_append]
    aesop
  · intro expr when_then_expr else_expr ihe ihw ihel e1 h
    simp only [mapColsM, mapColsMList, mapColsMListList, mapColsMPairs, mapColsMOpt, mapColsMOptList] at h
    try simp only [except_bind_eq_ok] at h
    try simp only [Expr.columns, Expr.columnsList, Expr.columnsListList, Expr.columnsPairs, Expr.columnsOpt, Expr.columnsOptList, List.mem_append]
    aesop
  · intro expr data_type ih e1 h
    simp only [mapColsM, mapColsMList, mapColsMListList, mapColsMPairs, mapColsMOpt, mapColsMOptList] at h
    try simp only [except_bind_eq_ok] at h
    try simp only [Expr.columns, Expr.columnsList, Expr.columnsListList, Expr.columnsPairs, Expr.columnsOpt, Expr.columnsOptList, List.mem_append]
    aesop
  · intro expr data_type ih e1 h
    simp only [mapColsM, mapColsMList, mapColsMListList, mapColsMPairs, mapColsMOpt, mapColsMOptList] at h
    try simp only [except_bind_eq_ok] at h
    try simp only [Expr.columns, Expr.columnsList, Expr.columnsListList, Expr.columnsPairs, Expr.columnsOpt, Expr.columnsOptList, List.mem_append]
    aesop
  · intro expr asc nulls_first ih e1 h
    simp only [mapColsM, mapColsMList, mapColsMListList, mapColsMPairs, mapColsMOpt, mapColsMOptList] at h
    try simp only [except_bind_eq_ok] at h
    try simp only [Expr.columns, Expr.columnsList, Expr.columnsListList, Expr.columnsPairs, Expr.columnsOpt, Expr.columnsOptList, List.mem_append]
    aesop
  · intro args fn ih e1 h
    simp only [mapColsM, mapColsMList, mapColsMListList, mapColsMPairs, mapColsMOpt, mapColsMOptList] at h
    try simp only [except_bind_eq_ok] at h
    try simp only [Expr.columns, Expr.columnsList, Expr.columnsListList, Expr.columnsPairs, Expr.columnsOpt, Expr.columnsOptList, List.mem_append]
    aesop
  · intro args fn ih e1 h
    simp only [mapColsM, mapColsMList, mapColsMListList, mapColsMPairs, mapColsMOpt, mapColsMOptList] at h
    try simp only [except_bind_eq_ok] at h
    try simp only [Expr.columns, Expr.columnsList, Expr.columnsListList, Expr.columnsPairs, Expr.columnsOpt, Expr.columnsOptList, List.mem_append]
    aesop
  · intro args fn ih e1 h
    simp only [mapColsM, mapColsMList, mapColsMListList, mapColsMPairs, mapColsMOpt, mapColsMOptList] at h
    try simp only [except_bind_eq_ok] at h
    try simp only [Expr.columns, Expr.columnsList, Expr.columnsListList, Expr.columnsPairs, Expr.columnsOpt, Expr.columnsOptList, List.mem_append]
    aesop
  · intro args fn partition_by order_by window_frame iha ihp iho e1 h
    simp only [mapColsM, mapColsMList, mapColsMListList, mapColsMPairs, mapColsMOpt, mapColsMOptList] at h
    try simp only [except_bind_eq_ok] at h
    try simp only [Expr.columns, Expr.columnsList, Expr.columnsListList, Expr.columnsPairs, Expr.columnsOpt, Expr.columnsOptList, List.mem_append]
    aesop
  · intro args fn distinct within_group ihw iha e1 h
    simp only [mapColsM, mapColsMList, mapColsMListList, mapColsMPairs, mapColsMOpt, mapColsMOptList] at h
    try simp only [except_bind_eq_ok] at h
    try simp only [Expr.columns, Expr.columnsList, Expr.columnsListList, Expr.columnsPairs, Expr.columnsOpt, Expr.columnsOptList, List.mem_append]
    aesop
  · intro exprs ih e1 h
    simp only [mapColsM, mapColsMList, mapColsMListList, mapColsMPairs, mapColsMOpt, mapColsMOptList] at h
    try simp only [except_bind_eq_ok] at h
    try simp only [Expr.columns, Expr.columnsList, Expr.columnsListList, Expr.columnsPairs, Expr.columnsOpt, Expr.columnsOptList, List.mem_append]
    aesop
  · intro exprs ih e1 h
    simp only [mapColsM, mapColsMList, mapColsMListList, mapColsMPairs, mapColsMOpt, mapColsMOptList] at h
    try simp only [except_bind_eq_ok] at h
    try simp only [Expr.columns, Expr.columnsList, Expr.columnsListList, Expr.columnsPairs, Expr.columnsOpt, Expr.columnsOptList, List.mem_append]
    aesop
  · intro lists ih e1 h
    simp only [mapColsM, mapColsMList, mapColsMListList, mapColsMPairs, mapColsMOpt, mapColsMOptList] at h
    try simp only [except_bind_eq_ok] at h
    try simp only [Expr.columns, Expr.columnsList, Expr.columnsListList, Expr.columnsPairs, Expr.columnsOpt, Expr.columnsOptList, List.mem_append]
    aesop
  · intro args fn ih e1 h
    simp only [mapColsM, mapColsMList, mapColsMListList, mapColsMPairs, mapColsMOpt, mapColsMOptList] at h
    try simp only [except_bind_eq_ok] at h
    try simp only [Expr.columns, Expr.columnsList, Expr.columnsListList, Expr.columnsPairs, Expr.columnsOpt, Expr.columnsOptList, List.mem_append]
    aesop
  · intro expr list negated ihe ihl e1 h
    simp only [mapColsM, mapColsMList, mapColsMListList, mapColsMPairs, mapColsMOpt, mapColsMOptList] at h
    try simp only [except_bind_eq_ok] at h
    try simp only [Expr.columns, Expr.columnsList, Expr.columnsListList, Expr.columnsPairs, Expr.columnsOpt, Expr.columnsOptList, List.mem_append]
    aesop
  · intro expr subquery negated ihe ihq e1 h
    simp only [mapColsM, mapColsMList, mapColsMListList, mapColsMPairs, mapColsMOpt, mapColsMOptList] at h
    try simp only [except_bind_eq_ok] at h
    try simp only [Expr.columns, Expr.columnsList, Expr.columnsListList, Expr.columnsPairs, Expr.columnsOpt, Expr.columnsOptList, List.mem_append]
    aesop
  · intro e1 h
    simp only [mapColsM, mapColsMList, mapColsMListList, mapColsMPairs, mapColsMOpt, mapColsMOptList] at h
    try simp only [except_bind_eq_ok] at h
    try simp only [Expr.columns, Expr.columnsList, Expr.columnsListList, Expr.columnsPairs, Expr.columnsOpt, Expr.columnsOptList, List.mem_append]
    aesop
  · intro qualifier e1 h
    simp only [mapColsM, mapColsMList, mapColsMListList, mapColsMPairs, mapColsMOpt, mapColsMOptList] at h
    try simp only [except_bind_eq_ok] at h
    try simp only [Expr.columns, Expr.columnsList, Expr.columnsListList, Expr.columnsPairs, Expr.columnsOpt, Expr.columnsOptList, List.mem_append]
    aesop
  · intro expr key ihe ihk e1 h
    simp only [mapColsM, mapColsMList, mapColsMListList, mapColsMPairs, mapColsMOpt, mapColsMOptList] at h
    try simp only [except_bind_eq_ok] at h
    try simp only [Expr.columns, Expr.columnsList, Expr.columnsListList, Expr.columnsPairs, Expr.columnsOpt, Expr.columnsOptList, List.mem_append]
    aesop
  · intro e1 h
    simp only [mapColsM, mapColsMList, mapColsMListList, mapColsMPairs, mapColsMOpt, mapColsMOptList] at h
    try simp only [except_bind_eq_ok] at h
    try simp only [Expr.columns, Expr.columnsList, Expr.columnsListList, Expr.columnsPairs, Expr.columnsOpt, Expr.columnsOptList, List.mem_append]
    aesop
  · intro e ih e1 h
    simp only [mapColsM, mapColsMList, mapColsMListList, mapColsMPairs, mapColsMOpt, mapColsMOptList] at h
    try simp only [except_bind_eq_ok] at h
    try simp only [Expr.columns, Expr.columnsList, Expr.columnsListList, Expr.columnsPairs, Expr.columnsOpt, Expr.columnsOptList, List.mem_append]
    aesop
  · intro e1 h
    simp only [mapColsM, mapColsMList, mapColsMListList, mapColsMPairs, mapColsMOpt, mapColsMOptList] at h
    try simp only [except_bind_eq_ok] at h
    try simp only [Expr.columns, Expr.columnsList, Expr.columnsListList, Expr.columnsPairs, Expr.columnsOpt, Expr.columnsOptList, List.mem_append]
    aesop
  · intro w t rest ihw iht ihr e1 h
    simp only [mapColsM, mapColsMList, mapColsMListList, mapColsMPairs, mapColsMOpt, mapColsMOptList] at h
    try simp only [except_bind_eq_ok] at h
    try simp only [Expr.columns, Expr.columnsList, Expr.columnsListList, Expr.columnsPairs, Expr.columnsOpt, Expr.columnsOptList, List.mem_append]
    aesop
  · intro e1 h
    simp only [mapColsM, mapColsMList, mapColsMListList, mapColsMPairs, mapColsMOpt, mapColsMOptList] at h
    try simp only [except_bind_eq_ok] at h
    try simp only [Expr.columns, Expr.columnsList, Expr.columnsListList, Expr.columnsPairs, Expr.columnsOpt, Expr.columnsOptList, List.mem_append]
    aesop
  · intro e rest ihe ihr e1 h
    simp only [mapColsM, mapColsMList, mapColsMListList, mapColsMPairs, mapColsMOpt, mapColsMOptList] at h
    try simp only [except_bind_eq_ok] at h
    try simp only [Expr.columns, Expr.columnsList, Expr.columnsListList, Expr.columnsPairs, Expr.columnsOpt, Expr.columnsOptList, List.mem_append]
    aesop
  · intro e1 h
    simp only [mapColsM, mapColsMList, mapColsMListList, mapColsMPairs, mapColsMOpt, mapColsMOptList] at h
    try simp only [except_bind_eq_ok] at h
    try simp only [Expr.columns, Expr.columnsList, Expr.columnsListList, Expr.columnsPairs, Expr.columnsOpt, Expr.columnsOptList, List.mem_append]
    aesop
  · intro l ih e1 h
    simp only [mapColsM, mapColsMList, mapColsMListList, mapColsMPairs, mapColsMOpt, mapColsMOptList] at h
    try simp only [except_bind_eq_ok] at h
    try simp only [Expr.columns, Expr.columnsList, Expr.columnsListList, Expr.columnsPairs, Expr.columnsOpt, Expr.columnsOptList, List.mem_append]
    aesop
  · intro e1 h
    simp only [mapColsM, mapColsMList, mapColsMListList, mapColsMPairs, mapColsMOpt, mapColsMOptList] at h
    try simp only [except_bind_eq_ok] at h
    try simp only [Expr.columns, Expr.columnsList, Expr.columnsListList, Expr.columnsPairs, Expr.columnsOpt, Expr.columnsOptList, List.mem_append]
    aesop
  · intro l rest ihl ihr e1 h
    simp only [mapColsM, mapColsMList, mapColsMListList, mapColsMPairs, mapColsMOpt, mapColsMOptList] at h
    try simp only [except_bind_eq_ok] at h
    try simp only [Expr.columns, Expr.columnsList, Expr.columnsListList, Expr.columnsPairs, Expr.columnsOpt, Expr.columnsOptList, List.mem_append]
    aesop

set_option maxHeartbeats 2000000 in
/-- Roundtrip: if on every column of `e` the map `f` succeeds with an
expression that `g`-maps back to that column, then the `f`-rewrite of `e`
succeeds and its `g`-rewrite restores `e` exactly. -/
theorem mapColsM_roundtrip (f g : Column → DFResult Expr) :
    ∀ e : Expr,
      (∀ c ∈ e.columns, ∃ ec, f c = .ok ec ∧ mapColsM g ec = .ok (.column c)) →
      ∃ e1, mapColsM f e = .ok e1 ∧ mapColsM g e1 = .ok e := by
  intro e0
  refine mapColsM.induct f
    (fun e => (∀ c ∈ e.columns, ∃ ec, f c = .ok ec ∧ mapColsM g ec = .ok (.column c)) →
      ∃ e1, mapColsM f e = .ok e1 ∧ mapColsM g e1 = .ok e)
    (fun v => (∀ c ∈ Expr.columnsListList v,
        ∃ ec, f c = .ok ec ∧ mapColsM g ec = .ok (.column c)) →
      ∃ v1, mapColsMListList f v = .ok v1 ∧ mapColsMListList g v1 = .ok v)
    (fun v => (∀ c ∈ Expr.columnsList v,
        ∃ ec, f c = .ok ec ∧ mapColsM g ec = .ok (.column c)) →
      ∃ v1, mapColsMList f v = .ok v1 ∧ mapColsMList g v1 = .ok v)
    (fun v => (∀ c ∈ Expr.columnsOptList v,
        ∃ ec, f c = .ok ec ∧ mapColsM g ec = .ok (.column c)) →
      ∃ v1, mapColsMOptList f v = .ok v1 ∧ mapColsMOptList g v1 = .ok v)
    (fun v => (∀ c ∈ Expr.columnsPairs v,
        ∃ ec, f c = .ok ec ∧ mapColsM g ec = .ok (.column c)) →
      ∃ v1, mapColsMPairs f v = .ok v1 ∧ mapColsMPairs g v1 = .ok v)
    (fun v => (∀ c ∈ Expr.columnsOpt v,
        ∃ ec, f c = .ok ec ∧ mapColsM g ec = .ok (.column c)) →
      ∃ v1, mapColsMOpt f v = .ok v1 ∧ mapColsMOpt g v1 = .ok v)
    ?_ ?_ ?_ ?_ ?_ ?_ ?_ ?_ ?_ ?_ ?_ ?_ ?_ ?_ ?_ ?_ ?_ ?_ ?_ ?_ ?_ ?_ ?_ ?_ ?_ ?_ ?_ ?_ ?_ ?_ ?_ ?_ ?_ ?_ ?_ ?_ ?_ ?_ ?_ ?_ ?_ ?_ ?_ e0
  · intro expr name ih H
    obtain ⟨r0, hr0a, hr0b⟩ := ih (fun c hc => H c (by simp [Expr.columns, Expr.columnsList, Expr.columnsListList, Expr.columnsPairs, Expr.columnsOpt, Expr.columnsOptList]; tauto))
    refine ⟨.alias r0 name, ?_, ?_⟩ <;>
      simp [hr0a, hr0b, mapColsM, mapColsMList, mapColsMListList, mapColsMPairs, mapColsMOpt, mapColsMOptList, except_ok_bind]
  · intro c H
    obtain ⟨ec, hf, hg⟩ := H c (by simp [Expr.columns])
    exact ⟨ec, by simpa [mapColsM] using hf, hg⟩
  · intro ty c H
    refine ⟨.outerColumn ty c, ?_, ?_⟩ <;>
      simp [mapColsM, mapColsMList, mapColsMListList, mapColsMPairs, mapColsMOpt, mapColsMOptList, except_ok_bind]
  · intro ty names H
    refine ⟨.scalarVariable ty names, ?_, ?_⟩ <;>
      simp [mapColsM, mapColsMList, mapColsMListList, mapColsMPairs, mapColsMOpt, mapColsMOptList, except_ok_bind]
  · intro value H
    refine ⟨.literal value, ?_, ?_⟩ <;>
      simp [mapColsM, mapColsMList, mapColsMListList, mapColsMPairs, mapColsMOpt, mapColsMOptList, except_ok_bind]
  · intro left op right ihl ihr H
    obtain ⟨r0, hr0a, hr0b⟩ := ihl (fun c hc => H c (by simp [Expr.columns, Expr.columnsList, Expr.columnsListList, Expr.columnsPairs, Expr.columnsOpt, Expr.columnsOptList]; tauto))
    obtain ⟨r1, hr1a, hr1b⟩ := ihr (fun c hc => H c (by simp [Expr.columns, Expr.columnsList, Expr.columnsListList, Expr.columnsPairs, Expr.columnsOpt, Expr.columnsOptList]; tauto))
    refine ⟨.binaryExpr r0 op r1, ?_, ?_⟩ <;>
      simp [hr0a, hr0b, hr1a, hr1b, mapColsM, mapColsMList, mapColsMListList, mapColsMPairs, mapColsMOpt, mapColsMOptList, except_ok_bind]
  · intro left op right all ihl ihr H
    obtain ⟨r0, hr0a, hr0b⟩ := ihl (fun c hc => H c (by simp [Expr.columns, Expr.columnsList, Expr.columnsListList, Expr.columnsPairs, Expr.columnsOpt, Expr.columnsOptList]; tauto))
    obtain ⟨r1, hr1a, hr1b⟩ := ihr (fun c hc => H c (by simp [Expr.columns, Expr.columnsList, Expr.columnsListList, Expr.columnsPairs, Expr.columnsOpt, Expr.columnsOptList]; tauto))
    refine ⟨.anyExpr r0 op r1 all, ?_, ?_⟩ <;>
      simp [hr0a, hr0b, hr1a, hr1b, mapColsM, mapColsMList, mapColsMListList, mapColsMPairs, mapColsMOpt, mapColsMOptList, except_ok_bind]
  · intro negated expr pattern escape_char ihe ihp H
    obtain ⟨r0, hr0a, hr0b⟩ := ihe (fun c hc => H c (by simp [Expr.columns, Expr.columnsList, Expr.columnsListList, Expr.columnsPairs, Expr.columnsOpt, Expr.columnsOptList]; tauto))
    obtain ⟨r1, hr1a, hr1b⟩ := ihp (fun c hc => H c (by simp [Expr.columns, Expr.columnsList, Expr.columnsListList, Expr.columnsPairs, Expr.columnsOpt, Expr.columnsOptList]; tauto))
    refine ⟨.like negated r0 r1 escape_char, ?_, ?_⟩ <;>
      simp [hr0a, hr0b, hr1a, hr1b, mapColsM, mapColsMList, mapColsMListList, mapColsMPairs, mapColsMOpt, mapColsMOptList, except_ok_bind]
  · intro negated expr pattern escape_char ihe ihp H
    obtain ⟨r0, hr0a, hr0b⟩ := ihe (fun c hc => H c (by simp [Expr.columns, Expr.columnsList, Expr.columnsListList, Expr.columnsPairs, Expr.columnsOpt, Expr.columnsOptList]; tauto))
    obtain ⟨r1, hr1a, hr1b⟩ := ihp (fun c hc => H c (by simp [Expr.columns, Expr.columnsList, Expr.columnsListList, Expr.columnsPairs, Expr.columnsOpt, Expr.columnsOptList]; tauto))
    refine ⟨.ilike negated r0 r1 escape_char, ?_, ?_⟩ <;>
      simp [hr0a, hr0b, hr1a, hr1b, mapColsM, mapColsMList, mapColsMListList, mapColsMPairs, mapColsMOpt, mapColsMOptList, except_ok_bind]
  · intro negated expr pattern escape_char ihe ihp H
    obtain ⟨r0, hr0a, hr0b⟩ := ihe (fun c hc => H c (by simp [Expr.columns, Expr.columnsList, Expr.columnsListList, Expr.columnsPairs, Expr.columnsOpt, Expr.columnsOptList]; tauto))
    obtain ⟨r1, hr1a, hr1b⟩ := ihp (fun c hc => H c (by simp [Expr.columns, Expr.columnsList, Expr.columnsListList, Expr.columnsPairs, Expr.columnsOpt, Expr.columnsOptList]; tauto))
    refine ⟨.similarTo negated r0 r1 escape_char, ?_, ?_⟩ <;>
      simp [hr0a, hr0b, hr1a, hr1b, mapColsM, mapColsMList, mapColsMListList, mapColsMPairs, mapColsMOpt, mapColsMOptList, except_ok_bind]
  · intro expr ih H
    obtain ⟨r0, hr0a, hr0b⟩ := ih (fun c hc => H c (by simp [Expr.columns, Expr.columnsList, Expr.columnsListList, Expr.columnsPairs, Expr.columnsOpt, Expr.columnsOptList]; tauto))
    refine ⟨.not r0, ?_, ?_⟩ <;>
      simp [hr0a, hr0b, mapColsM, mapColsMList, mapColsMListList, mapColsMPairs, mapColsMOpt, mapColsMOptList, except_ok_bind]
  · intro expr ih H
    obtain ⟨r0, hr0a, hr0b⟩ := ih (fun c hc => H c (by simp [Expr.columns, Expr.columnsList, Expr.columnsListList, Expr.columnsPairs, Expr.columnsOpt, Expr.columnsOptList]; tauto))
    refine ⟨.isNotNull r0, ?_, ?_⟩ <;>
      simp [hr0a, hr0b, mapColsM, mapColsMList, mapColsMListList, mapColsMPairs, mapColsMOpt, mapColsMOptList, except_ok_bind]
  · intro expr ih H
    obtain ⟨r0, hr0a, hr0b⟩ := ih (fun c hc => H c (by simp [Expr.columns, Expr.columnsList, Expr.columnsListList, Expr.columnsPairs, Expr.columnsOpt, Expr.columnsOptList]; tauto))
    refine ⟨.isNull r0, ?_, ?_⟩ <;>
      simp [hr0a, hr0b, mapColsM, mapColsMList, mapColsMListList, mapColsMPairs, mapColsMOpt, mapColsMOptList, except_ok_bind]
  · intro expr ih H
    obtain ⟨r0, hr0a, hr0b⟩ := ih (fun c hc => H c (by simp [Expr.columns, Expr.columnsList, Expr.columnsListList, Expr.columnsPairs, Expr.columnsOpt, Expr.columnsOptList]; tauto))
    refine ⟨.negative r0, ?_, ?_⟩ <;>
      simp [hr0a, hr0b, mapColsM, mapColsMList, mapColsMListList, mapColsMPairs, mapColsMOpt, mapColsMOptList, except_ok_bind]
  · intro expr low high negated ihe ihl ihh H
    obtain ⟨r0, hr0a, hr0b⟩ := ihe (fun c hc => H c (by simp [Expr.columns, Expr.columnsList, Expr.columnsListList, Expr.columnsPairs, Expr.columnsOpt, Expr.columnsOptList]; tauto))
    obtain ⟨r1, hr1a, hr1b⟩ := ihl (fun c hc => H c (by simp [Expr.columns, Expr.columnsList, Expr.columnsListList, Expr.columnsPairs, Expr.columnsOpt, Expr.columnsOptList]; tauto))
    obtain ⟨r2, hr2a, hr2b⟩ := ihh (fun c hc => H c (by simp [Expr.columns, Expr.columnsList, Expr.columnsListList, Expr.columnsPairs, Expr.columnsOpt, Expr.columnsOptList]; tauto))
    refine ⟨.between r0 r1 r2 negated, ?_, ?_⟩ <;>
      simp [hr0a, hr0b, hr1a, hr1b, hr2a, hr2b, mapColsM, mapColsMList, mapColsMListList, mapColsMPairs, mapColsMOpt, mapColsMOptList, except_ok_bind]
  · intro expr when_then_expr else_expr ihe ihw ihel H
    obtain ⟨r0, hr0a, hr0b⟩ := ihe (fun c hc => H c (by simp [Expr.columns, Expr.columnsList, Expr.columnsListList, Expr.columnsPairs, Expr.columnsOpt, Expr.columnsOptList]; tauto))
    obtain ⟨r1, hr1a, hr1b⟩ := ihw (fun c hc => H c (by simp [Expr.columns, Expr.columnsList, Expr.columnsListList, Expr.columnsPairs, Expr.columnsOpt, Expr.columnsOptList]; tauto))
    obtain ⟨r2, hr2a, hr2b⟩ := ihel (fun c hc => H c (by simp [Expr.columns, Expr.columnsList, Expr.columnsListList, Expr.columnsPairs, Expr.columnsOpt, Expr.columnsOptList]; tauto))
    refine ⟨.caseExpr r0 r1 r2, ?_, ?_⟩ <;>
      simp [hr0a, hr0b, hr1a, hr1b, hr2a, hr2b, mapColsM, mapColsMList, mapColsMListList, mapColsMPairs, mapColsMOpt, mapColsMOptList, except_ok_bind]
  · intro expr data_type ih H
    obtain ⟨r0, hr0a, hr0b⟩ := ih (fun c hc => H c (by simp [Expr.columns, Expr.columnsList, Expr.columnsListList, Expr.columnsPairs, Expr.columnsOpt, Expr.columnsOptList]; tauto))
    refine ⟨.cast r0 data_type, ?_, ?_⟩ <;>
      simp [hr0a, hr0b, mapColsM, mapColsMList, mapColsMListList, mapColsMPairs, mapColsMOpt, mapColsMOptList, except_ok_bind]
  · intro expr data_type ih H
    obtain ⟨r0, hr0a, hr0b⟩ := ih (fun c hc => H c (by simp [Expr.columns, Expr.columnsList, Expr.columnsListList, Expr.columnsPairs, Expr.columnsOpt, Expr.columnsOptList]; tauto))
    refine ⟨.tryCast r0 data_type, ?_, ?_⟩ <;>
      simp [hr0a, hr0b, mapColsM, mapColsMList, mapColsMListList, mapColsMPairs, mapColsMOpt, mapColsMOptList, except_ok_bind]
  · intro expr asc nulls_first ih H
    obtain ⟨r0, hr0a, hr0b⟩ := ih (fun c hc => H c (by simp [Expr.columns, Expr.columnsList, Expr.columnsListList, Expr.columnsPairs, Expr.columnsOpt, Expr.columnsOptList]; tauto))
    refine ⟨.sort r0 asc nulls_first, ?_, ?_⟩ <;>
      simp [hr0a, hr0b, mapColsM, mapColsMList, mapColsMListList, mapColsMPairs, mapColsMOpt, mapColsMOptList, except_ok_bind]
  · intro args fn ih H
    obtain ⟨r0, hr0a, hr0b⟩ := ih (fun c hc => H c (by simp [Expr.columns, Expr.columnsList, Expr.columnsListList, Expr.columnsPairs, Expr.columnsOpt, Expr.columnsOptList]; tauto))
    refine ⟨.scalarFunction r0 fn, ?_, ?_⟩ <;>
      simp [hr0a, hr0b, mapColsM, mapColsMList, mapColsMListList, mapColsMPairs, mapColsMOpt, mapColsMOptList, except_ok_bind]
  · intro args fn ih H
    obtain ⟨r0, hr0a, hr0b⟩ := ih (fun c hc => H c (by simp [Expr.columns, Expr.columnsList, Expr.columnsListList, Expr.columnsPairs, Expr.columnsOpt, Expr.columnsOptList]; tauto))
    refine ⟨.scalarUDF r0 fn, ?_, ?_⟩ <;>
      simp [hr0a, hr0b, mapColsM, mapColsMList, mapColsMListList, mapColsMPairs, mapColsMOpt, mapColsMOptList, except_ok_bind]
  · intro args fn ih H
    obtain ⟨r0, hr0a, hr0b⟩ := ih (fun c hc => H c (by simp [Expr.columns, Expr.columnsList, Expr.columnsListList, Expr.columnsPairs, Expr.columnsOpt, Expr.columnsOptList]; tauto))
    refine ⟨.tableUDF r0 fn, ?_, ?_⟩ <;>
      simp [hr0a, hr0b, mapColsM, mapColsMList, mapColsMListList, mapColsMPairs, mapColsMOpt, mapColsMOptList, except_ok_bind]
  · intro args fn partition_by order_by window_frame iha ihp iho H
    obtain ⟨r0, hr0a, hr0b⟩ := iha (fun c hc => H c (by simp [Expr.columns, Expr.columnsList, Expr.columnsListList, Expr.columnsPairs, Expr.columnsOpt, Expr.columnsOptList]; tauto))
    obtain ⟨r1, hr1a, hr1b⟩ := ihp (fun c hc => H c (by simp [Expr.columns, Expr.columnsList, Expr.columnsListList, Expr.columnsPairs, Expr.columnsOpt, Expr.columnsOptList]; tauto))
    obtain ⟨r2, hr2a, hr2b⟩ := iho (fun c hc => H c (by simp [Expr.columns, Expr.columnsList, Expr.columnsListList, Expr.columnsPairs, Expr.columnsOpt, Expr.columnsOptList]; tauto))
    refine ⟨.windowFunction r0 fn r1 r2 window_frame, ?_, ?_⟩ <;>
      simp [hr0a, hr0b, hr1a, hr1b, hr2a, hr2b, mapColsM, mapColsMList, mapColsMListList, mapColsMPairs, mapColsMOpt, mapColsMOptList, except_ok_bind]
  · intro args fn distinct within_group ihw iha H
    obtain ⟨r0, hr0a, hr0b⟩ := ihw (fun c hc => H c (by simp [Expr.columns, Expr.columnsList, Expr.columnsListList, Expr.columnsPairs, Expr.columnsOpt, Expr.columnsOptList]; tauto))
    obtain ⟨r1, hr1a, hr1b⟩ := iha (fun c hc => H c (by simp [Expr.columns, Expr.columnsList, Expr.columnsListList, Expr.columnsPairs, Expr.columnsOpt, Expr.columnsOptList]; tauto))
    refine ⟨.aggregateFunction r1 fn distinct r0, ?_, ?_⟩ <;>
      simp [hr0a, hr0b, hr1a, hr1b, mapColsM, mapColsMList, mapColsMListList, mapColsMPairs, mapColsMOpt, mapColsMOptList, except_ok_bind]
  · intro exprs ih H
    obtain ⟨r0, hr0a, hr0b⟩ := ih (fun c hc => H c (by simp [Expr.columns, Expr.columnsList, Expr.columnsListList, Expr.columnsPairs, Expr.columnsOpt, Expr.columnsOptList]; tauto))
    refine ⟨.groupingSet (.rollup r0), ?_, ?_⟩ <;>
      simp [hr0a, hr0b, mapColsM, mapColsMList, mapColsMListList, mapColsMPairs, mapColsMOpt, mapColsMOptList, except_ok_bind]
  · intro exprs ih H
    obtain ⟨r0, hr0a, hr0b⟩ := ih (fun c hc => H c (by simp [Expr.columns, Expr.columnsList, Expr.columnsListList, Expr.columnsPairs, Expr.columnsOpt, Expr.columnsOptList]; tauto))
    refine ⟨.groupingSet (.cube r0), ?_, ?_⟩ <;>
      simp [hr0a, hr0b, mapColsM, mapColsMList, mapColsMListList, mapColsMPairs, mapColsMOpt, mapColsMOptList, except_ok_bind]
  · intro lists ih H
    obtain ⟨r0, hr0a, hr0b⟩ := ih (fun c hc => H c (by simp [Expr.columns, Expr.columnsList, Expr.columnsListList, Expr.columnsPairs, Expr.columnsOpt, Expr.columnsOptList]; tauto))
    refine ⟨.groupingSet (.groupingSets r0), ?_, ?_⟩ <;>
      simp [hr0a, hr0b, mapColsM, mapColsMList, mapColsMListList, mapColsMPairs, mapColsMOpt, mapColsMOptList, except_ok_bind]
  · intro args fn ih H
    obtain ⟨r0, hr0a, hr0b⟩ := ih (fun c hc => H c (by simp [Expr.columns, Expr.columnsList, Expr.columnsListList, Expr.columnsPairs, Expr.columnsOpt, Expr.columnsOptList]; tauto))
    refine ⟨.aggregateUDF r0 fn, ?_, ?_⟩ <;>
      simp [hr0a, hr0b, mapColsM, mapColsMList, mapColsMListList, mapColsMPairs, mapColsMOpt, mapColsMOptList, except_ok_bind]
  · intro expr list negated ihe ihl H
    obtain ⟨r0, hr0a, hr0b⟩ := ihe (fun c hc => H c (by simp [Expr.columns, Expr.columnsList, Expr.columnsListList, Expr.columnsPairs, Expr.columnsOpt, Expr.columnsOptList]; tauto))
    obtain ⟨r1, hr1a, hr1b⟩ := ihl (fun c hc => H c (by simp [Expr.columns, Expr.columnsList, Expr.columnsListList, Expr.columnsPairs, Expr.columnsOpt, Expr.columnsOptList]; tauto))
    refine ⟨.inList r0 r1 negated, ?_, ?_⟩ <;>
      simp [hr0a, hr0b, hr1a, hr1b, mapColsM, mapColsMList, mapColsMListList, mapColsMPairs, mapColsMOpt, mapColsMOptList, except_ok_bind]
  · intro expr subquery negated ihe ihq H
    obtain ⟨r0, hr0a, hr0b⟩ := ihe (fun c hc => H c (by simp [Expr.columns, Expr.columnsList, Expr.columnsListList, Expr.columnsPairs, Expr.columnsOpt, Expr.columnsOptList]; tauto))
    obtain ⟨r1, hr1a, hr1b⟩ := ihq (fun c hc => H c (by simp [Expr.columns, Expr.columnsList, Expr.columnsListList, Expr.columnsPairs, Expr.columnsOpt, Expr.columnsOptList]; tauto))
    refine ⟨.inSubquery r0 r1 negated, ?_, ?_⟩ <;>
      simp [hr0a, hr0b, hr1a, hr1b, mapColsM, mapColsMList, mapColsMListList, mapColsMPairs, mapColsMOpt, mapColsMOptList, except_ok_bind]
  · intro H
    refine ⟨.wildcard, ?_, ?_⟩ <;>
      simp [mapColsM, mapColsMList, mapColsMListList, mapColsMPairs, mapColsMOpt, mapColsMOptList, except_ok_bind]
  · intro qualifier H
    refine ⟨.qualifiedWildcard qualifier, ?_, ?_⟩ <;>
      simp [mapColsM, mapColsMList, mapColsMListList, mapColsMPairs, mapColsMOpt, mapColsMOptList, except_ok_bind]
  · intro expr key ihe ihk H
    obtain ⟨r0, hr0a, hr0b⟩ := ihe (fun c hc => H c (by simp [Expr.columns, Expr.columnsList, Expr.columnsListList, Expr.columnsPairs, Expr.columnsOpt, Expr.columnsOptList]; tauto))
    obtain ⟨r1, hr1a, hr1b⟩ := ihk (fun c hc => H c (by simp [Expr.columns, Expr.columnsList, Expr.columnsListList, Expr.columnsPairs, Expr.columnsOpt, Expr.columnsOptList]; tauto))
    refine ⟨.getIndexedField r0 r1, ?_, ?_⟩ <;>
      simp [hr0a, hr0b, hr1a, hr1b, mapColsM, mapColsMList, mapColsMListList, mapColsMPairs, mapColsMOpt, mapColsMOptList, except_ok_bind]
  · intro H
    refine ⟨(none : Option Expr), ?_, ?_⟩ <;>
      simp [mapColsM, mapColsMList, mapColsMListList, mapColsMPairs, mapColsMOpt, mapColsMOptList, except_ok_bind]
  · intro e ih H
    obtain ⟨r0, hr0a, hr0b⟩ := ih (fun c hc => H c (by simp [Expr.columns, Expr.columnsList, Expr.columnsListList, Expr.columnsPairs, Expr.columnsOpt, Expr.columnsOptList]; tauto))
    refine ⟨some r0, ?_, ?_⟩ <;>
      simp [hr0a, hr0b, mapColsM, mapColsMList, mapColsMListList, mapColsMPairs, mapColsMOpt, mapColsMOptList, except_ok_bind]
  · intro H
    refine ⟨([] : List (Expr × Expr)), ?_, ?_⟩ <;>
      simp [mapColsM, mapColsMList, mapColsMListList, mapColsMPairs, mapColsMOpt, mapColsMOptList, except_ok_bind]
  · intro w t rest ihw iht ihr H
    obtain ⟨r0, hr0a, hr0b⟩ := ihw (fun c hc => H c (by simp [Expr.columns, Expr.columnsList, Expr.columnsListList, Expr.columnsPairs, Expr.columnsOpt, Expr.columnsOptList]; tauto))
    obtain ⟨r1, hr1a, hr1b⟩ := iht (fun c hc => H c (by simp [Expr.columns, Expr.columnsList, Expr.columnsListList, Expr.columnsPairs, Expr.columnsOpt, Expr.columnsOptList]; tauto))
    obtain ⟨r2, hr2a, hr2b⟩ := ihr (fun c hc => H c (by simp [Expr.columns, Expr.columnsList, Expr.columnsListList, Expr.columnsPairs, Expr.columnsOpt, Expr.columnsOptList]; tauto))
    refine ⟨((r0, r1) :: r2 : List (Expr × Expr)), ?_, ?_⟩ <;>
      simp [hr0a, hr0b, hr1a, hr1b, hr2a, hr2b, mapColsM, mapColsMList, mapColsMListList, mapColsMPairs, mapColsMOpt, mapColsMOptList, except_ok_bind]
  · intro H
    refine ⟨([] : List Expr), ?_, ?_⟩ <;>
      simp [mapColsM, mapColsMList, mapColsMListList, mapColsMPairs, mapColsMOpt, mapColsMOptList, except_ok_bind]
  · intro e rest ihe ihr H
    obtain ⟨r0, hr0a, hr0b⟩ := ihe (fun c hc => H c (by simp [Expr.columns, Expr.columnsList, Expr.columnsListList, Expr.columnsPairs, Expr.columnsOpt, Expr.columnsOptList]; tauto))
    obtain ⟨r1, hr1a, hr1b⟩ := ihr (fun c hc => H c (by simp [Expr.columns, Expr.columnsList, Expr.columnsListList, Expr.columnsPairs, Expr.columnsOpt, Expr.columnsOptList]; tauto))
    refine ⟨(r0 :: r1 : List Expr), ?_, ?_⟩ <;>
      simp [hr0a, hr0b, hr1a, hr1b, mapColsM, mapColsMList, mapColsMListList, mapColsMPairs, mapColsMOpt, mapColsMOptList, except_ok_bind]
  · intro H
    refine ⟨(none : Option (List Expr)), ?_, ?_⟩ <;>
      simp [mapColsM, mapColsMList, mapColsMListList, mapColsMPairs, mapColsMOpt, mapColsMOptList, except_ok_bind]
  · intro l ih H
    obtain ⟨r0, hr0a, hr0b⟩ := ih (fun c hc => H c (by simp [Expr.columns, Expr.columnsList, Expr.columnsListList, Expr.columnsPairs, Expr.columnsOpt, Expr.columnsOptList]; tauto))
    refine ⟨some r0, ?_, ?_⟩ <;>
      simp [hr0a, hr0b, mapColsM, mapColsMList, mapColsMListList, mapColsMPairs, mapColsMOpt, mapColsMOptList, except_ok_bind]
  · intro H
    refine ⟨([] : List (List Expr)), ?_, ?_⟩ <;>
      simp [mapColsM, mapColsMList, mapColsMListList, mapColsMPairs, mapColsMOpt, mapColsMOptList, except_ok_bind]
  · intro l rest ihl ihr H
    obtain ⟨r0, hr0a, hr0b⟩ := ihl (fun c hc => H c (by simp [Expr.columns, Expr.columnsList, Expr.columnsListList, Expr.columnsPairs, Expr.columnsOpt, Expr.columnsOptList]; tauto))
    obtain ⟨r1, hr1a, hr1b⟩ := ihr (fun c hc => H c (by simp [Expr.columns, Expr.columnsList, Expr.columnsListList, Expr.columnsPairs, Expr.columnsOpt, Expr.columnsOptList]; tauto))
    refine ⟨(r0 :: r1 : List (List Expr)), ?_, ?_⟩ <;>
      simp [hr0a, hr0b, hr1a, hr1b, mapColsM, mapColsMList, mapColsMListList, mapColsMPairs, mapColsMOpt, mapColsMOptList, except_ok_bind]

/-! ## Bridges from the source rewriters to the column-map specification -/

/-- The source `normalize_col_with_schemas` is the column-map of
`Column::normalize_with_schemas`. -/
theorem normalize_col_with_schemas_eq (e : Expr) (schemas : List DFSchema)
    (using_columns : List (List Column)) :
    normalize_col_with_schemas e schemas using_columns =
      mapColsM (fun c =>
        (Column.normalize_with_schemas c schemas using_columns).map Expr.column) e := by
  unfold normalize_col_with_schemas
  rw [rewrite_column_rewriter_eq]
  cases mapColsM (fun c =>
      (Column.normalize_with_schemas c schemas using_columns).map Expr.column) e <;> rfl

/-- The qualifier-stripping column map. -/
def strip_qualifier_f : Column → DFResult Expr :=
  fun c => .ok (.column ⟨none, c.name⟩)

/-- The source `unnormalize_col` is the column-map of qualifier stripping, and
that map never fails (the `expect` in the source is justified). -/
theorem unnormalize_col_eq (e : Expr) :
    ∃ e1, mapColsM strip_qualifier_f e = .ok e1 ∧ unnormalize_col e = e1 := by
  cases hres : mapColsM strip_qualifier_f e with
  | error m =>
    obtain ⟨c, _, hc⟩ := mapColsM_error_mem strip_qualifier_f e m hres
    simp [strip_qualifier_f] at hc
  | ok e1 =>
    refine ⟨e1, rfl, ?_⟩
    unfold unnormalize_col
    rw [show (column_rewriter fun c => .ok (.column ⟨none, c.name⟩)) =
      column_rewriter strip_qualifier_f from rfl]
    rw [rewrite_column_rewriter_eq, hres]
    rfl

/-! ## Facts about `Column::normalize_with_schemas` -/

/-- Resolution error characterization: the modelled resolution fails exactly
on the no-match condition, with the documented message. -/
theorem normalize_with_schemas_error (c : Column) (schemas : List DFSchema)
    (using_columns : List (List Column)) (m : DataFusionError)
    (h : Column.normalize_with_schemas c schemas using_columns = .error m) :
    (∀ s ∈ schemas, ∀ fl ∈ s.fields, field_matches c fl = false) ∧
      m = .Plan ("Column #" ++ c.flat_name ++ " not found in provided schemas") := by
  unfold Column.normalize_with_schemas at h
  cases hfs : schemas.findSome? (fun schema => schema.fields.find? (field_matches c)) with
  | some f => rw [hfs] at h; simp at h
  | none =>
    rw [hfs] at h
    simp only [Except.error.injEq] at h
    refine ⟨?_, h.symm⟩
    rw [List.findSome?_eq_none_iff] at hfs
    intro s hs fl hfl
    have := hfs s hs
    rw [List.find?_eq_none] at this
    simpa using this fl hfl

/-- Resolution failure on a no-match column. -/
theorem normalize_with_schemas_no_match (c : Column) (schemas : List DFSchema)
    (using_columns : List (List Column))
    (h : ∀ s ∈ schemas, ∀ fl ∈ s.fields, field_matches c fl = false) :
    Column.normalize_with_schemas c schemas using_columns =
      .error (.Plan ("Column #" ++ c.flat_name ++ " not found in provided schemas")) := by
  unfold Column.normalize_with_schemas
  have hfs : schemas.findSome? (fun schema => schema.fields.find? (field_matches c))
      = none := by
    rw [List.findSome?_eq_none_iff]
    intro s hs
    rw [List.find?_eq_none]
    intro fl hfl
    simp [h s hs fl hfl]
  rw [hfs]

/-! ## Claim C4: first-match-wins resolution priority -/

/-- C4: normalization resolves an unqualified column to the first schema in
list order containing a matching field (first conjunct, general form), and in
particular over schemas `[A2{a}, B{b}, A{a}]` the expression `a + b`
normalizes to `A2.a + B.b` (second conjunct) and not to `A.a + B.b` (third
conjunct, whenever the `A2` and `A` qualifiers differ). -/
theorem claim4_first_match_priority (qa2 qb qa na nb : String) (hn : na ≠ nb) :
    (∀ (c : Column) (pre post : List DFSchema) (S : DFSchema) (f0 : DFField)
      (u : List (List Column)),
      (∀ s ∈ pre, s.fields.find? (field_matches c) = none) →
      S.fields.find? (field_matches c) = some f0 →
      normalize_col_with_schemas (.column c) (pre ++ S :: post) u =
        .ok (.column ⟨f0.qualifier, f0.name⟩))
    ∧ normalize_col_with_schemas
        (.binaryExpr (.column ⟨none, na⟩) .Plus (.column ⟨none, nb⟩))
        [⟨[⟨some qa2, na, .Int8, false⟩]⟩, ⟨[⟨some qb, nb, .Int8, false⟩]⟩,
          ⟨[⟨some qa, na, .Int8, false⟩]⟩] []
        = .ok (.binaryExpr (.column ⟨some qa2, na⟩) .Plus (.column ⟨some qb, nb⟩))
    ∧ (qa2 ≠ qa →
      normalize_col_with_schemas
        (.binaryExpr (.column ⟨none, na⟩) .Plus (.column ⟨none, nb⟩))
        [⟨[⟨some qa2, na, .Int8, false⟩]⟩, ⟨[⟨some qb, nb, .Int8, false⟩]⟩,
          ⟨[⟨some qa, na, .Int8, false⟩]⟩] []
        ≠ .ok (.binaryExpr (.column ⟨some qa, na⟩) .Plus (.column ⟨some qb, nb⟩))) := by
  have hne1 : (na == nb) = false := beq_eq_false_iff_ne.mpr hn
  have hne2 : (nb == na) = false := beq_eq_false_iff_ne.mpr (Ne.symm hn)
  have hgen : ∀ (c : Column) (pre post : List DFSchema) (S : DFSchema) (f0 : DFField)
      (u : List (List Column)),
      (∀ s ∈ pre, s.fields.find? (field_matches c) = none) →
      S.fields.find? (field_matches c) = some f0 →
      normalize_col_with_schemas (.column c) (pre ++ S :: post) u =
        .ok (.column ⟨f0.qualifier, f0.name⟩) := by
    intro c pre post S f0 u hpre hS
    rw [normalize_col_with_schemas_eq]
    have hprenone : pre.findSome? (fun schema => schema.fields.find? (field_matches c))
        = none := by
      rw [List.findSome?_eq_none_iff]; exact hpre
    simp [mapColsM, Column.normalize_with_schemas, List.findSome?_append,
      List.findSome?_cons, hprenone, hS, Except.map]
  have hconc : normalize_col_with_schemas
      (.binaryExpr (.column ⟨none, na⟩) .Plus (.column ⟨none, nb⟩))
      [⟨[⟨some qa2, na, .Int8, false⟩]⟩, ⟨[⟨some qb, nb, .Int8, false⟩]⟩,
        ⟨[⟨some qa, na, .Int8, false⟩]⟩] []
      = .ok (.binaryExpr (.column ⟨some qa2, na⟩) .Plus (.column ⟨some qb, nb⟩)) := by
    rw [normalize_col_with_schemas_eq]
    simp [mapColsM, Column.normalize_with_schemas, List.findSome?_cons,
      List.find?_cons, field_matches, hne1, hne2, Except.map, except_ok_bind]
  refine ⟨hgen, hconc, fun hq hcontra => ?_⟩
  rw [hconc] at hcontra
  simp only [Except.ok.injEq, Expr.binaryExpr.injEq, Expr.column.injEq,
    Column.mk.injEq, Option.some.injEq] at hcontra
  exact hq hcontra.1.1

/-- Witness for C4 at concrete qualifiers and names. -/
theorem claim4_witness :
    ("a" : String) ≠ "b"
    ∧ normalize_col_with_schemas
        (.binaryExpr (.column ⟨none, "a"⟩) .Plus (.column ⟨none, "b"⟩))
        [⟨[⟨some "tableA2", "a", .Int8, false⟩]⟩, ⟨[⟨some "tableB", "b", .Int8, false⟩]⟩,
          ⟨[⟨some "tableA", "a", .Int8, false⟩]⟩] []
        = .ok (.binaryExpr (.column ⟨some "tableA2", "a"⟩) .Plus
            (.column ⟨some "tableB", "b"⟩))
    ∧ normalize_col_with_schemas
        (.binaryExpr (.column ⟨none, "a"⟩) .Plus (.column ⟨none, "b"⟩))
        [⟨[⟨some "tableA2", "a", .Int8, false⟩]⟩, ⟨[⟨some "tableB", "b", .Int8, false⟩]⟩,
          ⟨[⟨some "tableA", "a", .Int8, false⟩]⟩] []
        ≠ .ok (.binaryExpr (.column ⟨some "tableA", "a"⟩) .Plus
            (.column ⟨some "tableB", "b"⟩)) :=
  ⟨by decide,
    (claim4_first_match_priority "tableA2" "tableB" "tableA" "a" "b" (by decide)).2.1,
    (claim4_first_match_priority "tableA2" "tableB" "tableA" "a" "b" (by decide)).2.2
      (by decide)⟩

/-! ## Claim C5: unresolvable column aborts normalization with a plan error -/

/-- C5: if some column of the expression matches no field in any supplied
schema, normalization fails with a planning error whose message names an
unresolved column (`Column #<name> not found in provided schemas`), and the
whole rewrite is aborted: the result is that single error, no partial
rewrite. -/
theorem claim5_missing_column_error (e : Expr) (schemas : List DFSchema)
    (using_columns : List (List Column))
    (h : ∃ c ∈ e.columns, ∀ s ∈ schemas, ∀ fl ∈ s.fields, field_matches c fl = false) :
    ∃ c ∈ e.columns, (∀ s ∈ schemas, ∀ fl ∈ s.fields, field_matches c fl = false) ∧
      normalize_col_with_schemas e schemas using_columns =
        .error (.Plan ("Column #" ++ c.flat_name ++ " not found in provided schemas")) := by
  obtain ⟨c0, hc0, hnm0⟩ := h
  cases hres : mapColsM (fun c =>
      (Column.normalize_with_schemas c schemas using_columns).map Expr.column) e with
  | ok e1 =>
    exfalso
    obtain ⟨v, hv⟩ := mapColsM_ok_cols _ e e1 hres c0 hc0
    rw [except_map_eq_ok] at hv
    obtain ⟨a, ha, _⟩ := hv
    rw [normalize_with_schemas_no_match c0 schemas using_columns hnm0] at ha
    exact Except.noConfusion ha
  | error m =>
    obtain ⟨c, hc, hcerr⟩ := mapColsM_error_mem _ e m hres
    rw [except_map_eq_error] at hcerr
    obtain ⟨hnm, hm⟩ := normalize_with_schemas_error c schemas using_columns m hcerr
    refine ⟨c, hc, hnm, ?_⟩
    rw [normalize_col_with_schemas_eq, hres, hm]

/-- Witness for C5: schemas `[A{a}]`, expression `a + b`; the missing column
`b` yields the documented planning error. -/
theorem claim5_witness :
    (∃ c ∈ (Expr.binaryExpr (.column ⟨none, "a"⟩) .Plus (.column ⟨none, "b"⟩)).columns,
      ∀ s ∈ [DFSchema.mk [⟨some "tableA", "a", .Int8, false⟩]],
        ∀ fl ∈ s.fields, field_matches c fl = false)
    ∧ ∃ c ∈ (Expr.binaryExpr (.column ⟨none, "a"⟩) .Plus (.column ⟨none, "b"⟩)).columns,
      (∀ s ∈ [DFSchema.mk [⟨some "tableA", "a", .Int8, false⟩]],
        ∀ fl ∈ s.fields, field_matches c fl = false) ∧
      normalize_col_with_schemas
        (Expr.binaryExpr (.column ⟨none, "a"⟩) .Plus (.column ⟨none, "b"⟩))
        [DFSchema.mk [⟨some "tableA", "a", .Int8, false⟩]] [] =
        .error (.Plan ("Column #" ++ Column.flat_name c ++ " not found in provided schemas")) :=
  ⟨⟨⟨none, "b"⟩, by simp [Expr.columns], by decide⟩,
    claim5_missing_column_error _ _ []
      ⟨⟨none, "b"⟩, by simp [Expr.columns], by decide⟩⟩

/-! ## Claim C9: normalize/unnormalize roundtrip -/

/-- Counterexample to C9 as stated: for the already-qualified expression
`tableA.a` over the single schema `[A{a}]`, every column has exactly one
matching field, yet `unnormalize(normalize(e, [S], {}))` strips the qualifier
and so does not equal `e`. -/
theorem claim9_counterexample :
    ((DFSchema.mk [⟨some "tableA", "a", .Int8, false⟩]).fields.filter
        (field_matches ⟨some "tableA", "a"⟩)).length = 1
    ∧ normalize_col_with_schemas (.column ⟨some "tableA", "a"⟩)
        [DFSchema.mk [⟨some "tableA", "a", .Int8, false⟩]] [] =
        .ok (.column ⟨some "tableA", "a"⟩)
    ∧ unnormalize_col (.column ⟨some "tableA", "a"⟩) = .column ⟨none, "a"⟩
    ∧ (Expr.column ⟨none, "a"⟩) ≠ (Expr.column ⟨some "tableA", "a"⟩) := by
  refine ⟨by decide, ?_, ?_, by simp⟩
  · rw [normalize_col_with_schemas_eq]
    simp [mapColsM, Column.normalize_with_schemas, List.findSome?_cons,
      List.find?_cons, field_matches, Except.map]
  · obtain ⟨e1, h1, h2⟩ := unnormalize_col_eq (.column ⟨some "tableA", "a"⟩)
    simp only [mapColsM, strip_qualifier_f, Except.ok.injEq] at h1
    rw [h2, ← h1]

/-- C9 (amended): restricted to expressions whose columns are all unqualified,
the roundtrip holds — when every (unqualified) column of `e` has exactly one
matching field in the single schema `S`, stripping qualifiers after
normalization restores `e` exactly. -/
theorem claim9_amended_roundtrip (e : Expr) (S : DFSchema)
    (hq : ∀ c ∈ e.columns, c.relation = none)
    (h1 : ∀ c ∈ e.columns, (S.fields.filter (field_matches c)).length = 1) :
    ∃ e1, normalize_col_with_schemas e [S] [] = .ok e1 ∧ unnormalize_col e1 = e := by
  have H : ∀ c ∈ e.columns,
      ∃ ec, (fun c0 => (Column.normalize_with_schemas c0 [S] []).map Expr.column) c
          = .ok ec ∧
        mapColsM strip_qualifier_f ec = .ok (.column c) := by
    intro c hc
    have hfind : ∃ f0, S.fields.find? (field_matches c) = some f0 := by
      cases hf : S.fields.find? (field_matches c) with
      | some f0 => exact ⟨f0, rfl⟩
      | none =>
        exfalso
        rw [List.find?_eq_none] at hf
        have hemp : S.fields.filter (field_matches c) = [] := by
          rw [List.filter_eq_nil_iff]; exact hf
        have hlen := h1 c hc
        rw [hemp] at hlen
        simp at hlen
    obtain ⟨f0, hf0⟩ := hfind
    have hp := List.find?_some hf0
    have hname : f0.name = c.name := by
      unfold field_matches at hp
      rw [Bool.and_eq_true] at hp
      exact eq_of_beq hp.1
    refine ⟨.column ⟨f0.qualifier, f0.name⟩, ?_, ?_⟩
    · simp [Column.normalize_with_schemas, List.findSome?_cons, hf0, Except.map]
    · have hrel := hq c hc
      obtain ⟨crel, cname⟩ := c
      simp only at hrel hname
      subst hrel
      simp [mapColsM, strip_qualifier_f, hname]
  obtain ⟨e1, he1, he2⟩ := mapColsM_roundtrip _ strip_qualifier_f e H
  obtain ⟨e2, hu1, hu2⟩ := unnormalize_col_eq e1
  rw [he2] at hu1
  refine ⟨e1, ?_, ?_⟩
  · rw [normalize_col_with_schemas_eq]; exact he1
  · rw [hu2]
    injection hu1 with h
    exact h.symm

/-- Witness for the amended C9: `a + b` over a schema qualifying both. -/
theorem claim9_witness :
    (∀ c ∈ (Expr.binaryExpr (.column ⟨none, "a"⟩) .Plus (.column ⟨none, "b"⟩)).columns,
      c.relation = none)
    ∧ (∀ c ∈ (Expr.binaryExpr (.column ⟨none, "a"⟩) .Plus (.column ⟨none, "b"⟩)).columns,
      ((DFSchema.mk [⟨some "t", "a", .Int8, false⟩, ⟨some "t", "b", .Int8, false⟩]).fields.filter
          (field_matches c)).length = 1)
    ∧ ∃ e1, normalize_col_with_schemas
        (Expr.binaryExpr (.column ⟨none, "a"⟩) .Plus (.column ⟨none, "b"⟩))
        [DFSchema.mk [⟨some "t", "a", .Int8, false⟩, ⟨some "t", "b", .Int8, false⟩]] []
          = .ok e1 ∧
      unnormalize_col e1 =
        Expr.binaryExpr (.column ⟨none, "a"⟩) .Plus (.column ⟨none, "b"⟩) := by
  refine ⟨?_, ?_, ?_⟩
  · intro c hc
    simp [Expr.columns] at hc
    rcases hc with h | h <;> subst h <;> rfl
  · intro c hc
    simp [Expr.columns] at hc
    rcases hc with h | h <;> subst h <;> decide
  · refine claim9_amended_roundtrip _ _ ?_ ?_
    · intro c hc
      simp [Expr.columns] at hc
      rcases hc with h | h <;> subst h <;> rfl
    · intro c hc
      simp [Expr.columns] at hc
      rcases hc with h | h <;> subst h <;> decide

/-! ## Claim C6: sort rebasing against an aggregate -/

theorem expr_beq_def (a b : Expr) : (a == b) = Expr.eqb a b := rfl

set_option maxHeartbeats 2000000 in
/-- C6: for the plan `Aggregate{group_expr=[c1], aggr_expr=[count(c1) as cnt]}`
and the sort expression `Sort(count(c1))`, rebasing rewrites the sort
expression to a bare reference to the aggregate's `cnt` output column (first
conjunct), and the substitution is attempted against `aggr_expr` before
`group_expr`: when the same defining expression appears in both lists under
different output names, the `aggr_expr` name wins (second conjunct). -/
theorem claim6_sort_rebase_aggregate :
    rewrite_sort_cols_by_aggs
        [.sort (.aggregateFunction [.column ⟨none, "c1"⟩] "COUNT" false none) true true]
        (.Aggregate (.TableScan ⟨[⟨none, "c1", .Int64, false⟩]⟩)
          [.column ⟨none, "c1"⟩]
          [.alias (.aggregateFunction [.column ⟨none, "c1"⟩] "COUNT" false none) "cnt"]
          ⟨[⟨none, "c1", .Int64, false⟩, ⟨none, "cnt", .UInt64, true⟩]⟩)
      = .ok [.sort (.column ⟨none, "cnt"⟩) true true]
    ∧ rewrite_sort_cols_by_aggs
        [.sort (.column ⟨none, "c1"⟩) true true]
        (.Aggregate (.TableScan ⟨[⟨none, "c1", .Int64, false⟩]⟩)
          [.alias (.column ⟨none, "c1"⟩) "g"]
          [.alias (.column ⟨none, "c1"⟩) "a"]
          ⟨[⟨none, "g", .Int64, false⟩, ⟨none, "a", .Int64, false⟩]⟩)
      = .ok [.sort (.column ⟨none, "a"⟩) true true] := by
  constructor <;>
    simp [rewrite_sort_cols_by_aggs, rewrite_sort_col_by_aggs, rewrite_sort_col,
      normalize_col, LogicalPlan.all_schemas, LogicalPlan.using_columns,
      LogicalPlan.schema, normalize_col_with_schemas_eq, mapColsM, mapColsMList,
      mapColsMOpt, mapColsMOptList,
      Column.normalize_with_schemas, List.findSome?_cons, List.find?_cons,
      field_matches, rebase_expr, rebase_rewriter, rewrite_step, rewriteChildren,
      rewrite_vec, base_expr_matches, Expr.strip_alias, Expr.output_name,
      expr_beq_def, Expr.eqb, Expr.eqbList, Expr.eqbOpt, Expr.eqbOptList,
      Column.flat_name, except_ok_bind, Except.map, List.mapM, List.mapM.loop]

/-! ## Claim C2: strict sort-order propagation through a projection -/

/-- The source loop and the claim-side walk agree. -/
theorem sort_order_loop_eq_claimed (input_to_output : List (Option Nat))
    (single_value : List Nat) :
    ∀ l, sort_order_loop input_to_output single_value l =
      claimed_sort_order_walk input_to_output single_value l := by
  intro l
  induction l with
  | nil => rfl
  | cons p rest ih =>
    simp only [sort_order_loop, claimed_sort_order_walk, ih]

/-- C2: for every projection whose input hints carry a `sort_order`, the
propagated `sort_order` is the walk of the input sort positions in order —
emitting the mapped output position, skipping an unmapped position listed in
the input's `single_value_columns`, truncating at the first position that is
both unmapped and not single-valued — and an empty walk result propagates as
`none`. -/
theorem claim2_sort_order_propagation (p : ProjectionExec) (in_so : List Nat)
    (h : p.input.output_hints.sort_order = some in_so) :
    (ProjectionExec.output_hints p).sort_order =
      (if claimed_sort_order_walk p.input_to_output
          p.input.output_hints.single_value_columns in_so = [] then none
        else some (claimed_sort_order_walk p.input_to_output
          p.input.output_hints.single_value_columns in_so)) := by
  have hne : ¬ (p.input.output_hints = OptimizerHints.default) := by
    intro he
    rw [he] at h
    simp [OptimizerHints.default] at h
  unfold ProjectionExec.output_hints
  rw [if_neg hne, h]
  simp [sort_order_loop_eq_claimed, List.isEmpty_iff]

/-- Witness for C2: projection `[literal(1) as l1, a as a]` over a one-column
input sorted by position 0; the propagated sort order is `[1]`. -/
theorem claim2_witness :
    (ProjectionExec.mk
        [(⟨none, fun _ => .ok .Int64, fun _ => .ok false,
            fun _ => .ok (.Scalar (.Int64 (some 1)))⟩, "l1"),
          (⟨some ⟨"a", 0⟩, fun _ => .ok .Int64, fun _ => .ok false,
            fun b => .ok (.Array (b.columns.getD 0 ⟨[]⟩))⟩, "a")]
        ⟨[⟨"l1", .Int64, false⟩, ⟨"a", .Int64, false⟩]⟩
        ⟨⟨[⟨"a", .Int64, false⟩]⟩, .UnknownPartitioning 1,
          ⟨some [0], [], false, false, []⟩, []⟩).input.output_hints.sort_order
      = some [0]
    ∧ (ProjectionExec.output_hints
        (ProjectionExec.mk
          [(⟨none, fun _ => .ok .Int64, fun _ => .ok false,
              fun _ => .ok (.Scalar (.Int64 (some 1)))⟩, "l1"),
            (⟨some ⟨"a", 0⟩, fun _ => .ok .Int64, fun _ => .ok false,
              fun b => .ok (.Array (b.columns.getD 0 ⟨[]⟩))⟩, "a")]
          ⟨[⟨"l1", .Int64, false⟩, ⟨"a", .Int64, false⟩]⟩
          ⟨⟨[⟨"a", .Int64, false⟩]⟩, .UnknownPartitioning 1,
            ⟨some [0], [], false, false, []⟩, []⟩)).sort_order =
      (if claimed_sort_order_walk
          (ProjectionExec.mk
            [(⟨none, fun _ => .ok .Int64, fun _ => .ok false,
                fun _ => .ok (.Scalar (.Int64 (some 1)))⟩, "l1"),
              (⟨some ⟨"a", 0⟩, fun _ => .ok .Int64, fun _ => .ok false,
                fun b => .ok (.Array (b.columns.getD 0 ⟨[]⟩))⟩, "a")]
            ⟨[⟨"l1", .Int64, false⟩, ⟨"a", .Int64, false⟩]⟩
            ⟨⟨[⟨"a", .Int64, false⟩]⟩, .UnknownPartitioning 1,
              ⟨some [0], [], false, false, []⟩, []⟩).input_to_output [] [0] = [] then none
        else some (claimed_sort_order_walk
          (ProjectionExec.mk
            [(⟨none, fun _ => .ok .Int64, fun _ => .ok false,
                fun _ => .ok (.Scalar (.Int64 (some 1)))⟩, "l1"),
              (⟨some ⟨"a", 0⟩, fun _ => .ok .Int64, fun _ => .ok false,
                fun b => .ok (.Array (b.columns.getD 0 ⟨[]⟩))⟩, "a")]
            ⟨[⟨"l1", .Int64, false⟩, ⟨"a", .Int64, false⟩]⟩
            ⟨⟨[⟨"a", .Int64, false⟩]⟩, .UnknownPartitioning 1,
              ⟨some [0], [], false, false, []⟩, []⟩).input_to_output [] [0]))
    ∧ claimed_sort_order_walk [some 1] [] [0] = [1] :=
  ⟨rfl, claim2_sort_order_propagation _ [0] rfl, rfl⟩

/-! ## Claim C3: segmented approximate-sort-order propagation -/

/-- Counterexample to C3 as stated: input segment `[0, 1, 2]` with positions
`0` and `2` mapped (to outputs `0` and `1`) and position `1` unmapped and not
single-valued.  The code emits `[[0]]` — the `break` discards the rest of the
input segment — while the claim's walk, which starts a new output segment and
continues within the same input segment, predicts `[[0], [1]]`. -/
theorem claim3_counterexample :
    (ProjectionExec.output_hints
        (ProjectionExec.mk
          [(⟨some ⟨"a", 0⟩, fun _ => .ok .Int64, fun _ => .ok false,
              fun b => .ok (.Array (b.columns.getD 0 ⟨[]⟩))⟩, "a"),
            (⟨some ⟨"c", 2⟩, fun _ => .ok .Int64, fun _ => .ok false,
              fun b => .ok (.Array (b.columns.getD 2 ⟨[]⟩))⟩, "c")]
          ⟨[⟨"a", .Int64, false⟩, ⟨"c", .Int64, false⟩]⟩
          ⟨⟨[⟨"a", .Int64, false⟩, ⟨"b", .Int64, false⟩, ⟨"c", .Int64, false⟩]⟩,
            .UnknownPartitioning 1,
            ⟨none, [[0, 1, 2]], false, false, []⟩, []⟩)).approximate_sort_order
      = [[0]]
    ∧ claimed_approx_segments [some 0, none, some 1] [] [[0, 1, 2]] = [[0], [1]]
    ∧ ([[0]] : List (List Nat)) ≠ [[0], [1]] := by
  refine ⟨by decide, by decide, by decide⟩

/-- The inner segment loop emits exactly the (possibly empty) mapped prefix of
the segment prepended with the pending accumulator. -/
theorem approx_inner_emits (input_to_output : List (Option Nat))
    (single_value : List Nat) :
    ∀ (cols : List Nat) (acc : List Nat) (pm : Option Bool),
      (approx_inner input_to_output single_value acc pm cols).1 ++
        (if (approx_inner input_to_output single_value acc pm cols).2.1.isEmpty
          then [] else [(approx_inner input_to_output single_value acc pm cols).2.1])
      = (if (acc ++ amended_approx_segment input_to_output single_value cols).isEmpty
          then []
          else [acc ++ amended_approx_segment input_to_output single_value cols]) := by
  intro cols
  induction cols with
  | nil => intro acc pm; simp [approx_inner, amended_approx_segment]
  | cons p rest ih =>
    intro acc pm
    simp only [approx_inner, amended_approx_segment]
    cases input_to_output.getD p none with
    | some o =>
      simp only []
      rw [ih (acc ++ [o])]
      simp
    | none =>
      by_cases hsv : single_value.contains p = true
      · simp only [hsv, if_true]
        exact ih acc pm
      · have hmem : ¬ p ∈ single_value := by
          simpa using hsv
        simp [hmem]

/-- The outer loop emits, per input segment, its non-empty mapped prefix. -/
theorem approx_outer_emits (input_to_output : List (Option Nat))
    (single_value : List Nat) :
    ∀ (segments : List (List Nat)) (pm : Option Bool),
      (approx_outer input_to_output single_value pm segments).1 =
        amended_approx_segments input_to_output single_value segments := by
  intro segments
  induction segments with
  | nil => intro pm; simp [approx_outer, amended_approx_segments]
  | cons seg rest ih =>
    intro pm
    have hin := approx_inner_emits input_to_output single_value seg [] pm
    simp only [List.nil_append] at hin
    simp only [approx_outer]
    rcases h1 : approx_inner input_to_output single_value [] pm seg with
      ⟨emitted, out_segment, pm1⟩
    rw [h1] at hin
    dsimp only at hin
    have ih2 := ih (if pm1.isNone then some false else pm1)
    rcases h2 : approx_outer input_to_output single_value
        (if pm1.isNone then some false else pm1) rest with ⟨rest_emitted, pm3⟩
    rw [h2] at ih2
    dsimp only at ih2 ⊢
    rw [ih2, hin]
    simp only [amended_approx_segments, List.map_cons, List.filter_cons]
    by_cases hemp : (amended_approx_segment input_to_output single_value seg).isEmpty <;>
      simp [hemp, amended_approx_segments]

/-- C3 (amended): the propagated segments are built by walking each input
segment in order — a single-value unmapped column is skipped, a mapped column
is appended to the current output segment — but an unmapped non-single-value
column closes the current output segment (emitting it if non-empty) and
abandons the rest of that input segment: later columns of the same input
segment are discarded, and the next output segment starts only with the next
input segment. -/
theorem claim3_amended_segments (p : ProjectionExec) :
    (ProjectionExec.output_hints p).approximate_sort_order =
      amended_approx_segments p.input_to_output
        p.input.output_hints.single_value_columns
        p.input.output_hints.approximate_sort_order := by
  unfold ProjectionExec.output_hints
  by_cases hd : p.input.output_hints = OptimizerHints.default
  · rw [if_pos hd, hd]
    simp [OptimizerHints.default, amended_approx_segments]
  · rw [if_neg hd]
    have hout := approx_outer_emits p.input_to_output
      p.input.output_hints.single_value_columns
      p.input.output_hints.approximate_sort_order none
    rcases hap : approx_outer p.input_to_output
        p.input.output_hints.single_value_columns none
        p.input.output_hints.approximate_sort_order with ⟨aso, pmfin⟩
    rw [hap] at hout
    dsimp only at hout
    dsimp only
    rw [hap]
    exact hout

/-! ## The streaming projection as an item map -/

/-- Driving the projection stream to exhaustion maps the input items one for
one: an ok batch through `batch_project`, an error item unchanged. -/
theorem run_eq_map (schema : Schema) (exprs : List PhysExpr) :
    ∀ input : List (Except ArrowError RecordBatch),
      ProjectionStream.run ⟨schema, exprs, input⟩ =
        input.map (fun item =>
          match item with
          | .ok batch => batch_project batch exprs schema
          | .error e => .error e) := by
  intro input
  induction input with
  | nil =>
    rw [ProjectionStream.run]
    simp [ProjectionStream.poll_next]
  | cons x rest ih =>
    rw [ProjectionStream.run]
    simp only [ProjectionStream.poll_next]
    cases x <;> simp [ih]

/-! ## Claim C8: an evaluation failure and the items that follow it -/

/-- Counterexample to C8 as stated: an expression whose evaluation fails on
the first pulled batch (one row) and succeeds on the second (two rows).  The
failure is the first output item, but it is not terminal: the stream maps
items one for one, so a further (successful) item is produced when the caller
keeps polling. -/
theorem claim8_counterexample :
    ProjectionStream.run
      ⟨⟨[⟨"x", .Int64, false⟩]⟩,
        [⟨none, fun _ => .ok .Int64, fun _ => .ok false,
          fun b => if b.num_rows == 1 then .error (.Plan "boom")
            else .ok (.Scalar (.Int64 (some 5)))⟩],
        [.ok ⟨⟨[⟨"a", .Int64, false⟩]⟩, [⟨[.Int64 (some 1)]⟩]⟩,
          .ok ⟨⟨[⟨"a", .Int64, false⟩]⟩, [⟨[.Int64 (some 1), .Int64 (some 2)]⟩]⟩]⟩
      = [.error (.ExternalError (.Plan "boom")),
          .ok ⟨⟨[⟨"x", .Int64, false⟩]⟩, [⟨[.Int64 (some 5), .Int64 (some 5)]⟩]⟩] := by
  rw [run_eq_map]
  simp [batch_project, RecordBatch.num_rows, ColumnarValue.into_array,
    RecordBatch.try_new, ArrowArray.len, DataFusionError.into_arrow_external_error,
    List.mapM, List.mapM.loop, Except.map]

/-- C8 (amended): an expression-evaluation failure against a pulled batch is
surfaced as the error item produced for that batch, but it is not enforced to
be terminal: the stream is an item-for-item map of its input, so later input
batches still produce output items if the caller keeps polling (stopping
after an error is the caller's convention, mirrored from upstream, not a
property of the stream itself). -/
theorem claim8_amended_error_is_item_map (schema : Schema) (exprs : List PhysExpr)
    (input : List (Except ArrowError RecordBatch)) :
    ProjectionStream.run ⟨schema, exprs, input⟩ =
      input.map (fun item =>
        match item with
        | .ok batch => batch_project batch exprs schema
        | .error e => .error e) :=
  run_eq_map schema exprs input

/-! ## Claim C7: batch counts, column counts, schema and row counts -/

theorem except_mapM_loop {ε α β : Type} (f : α → Except ε β) :
    ∀ (l : List α) (acc : List β),
      List.mapM.loop f l acc = (l.mapM f) >>= fun bs => .ok (acc.reverse ++ bs) := by
  intro l
  induction l with
  | nil =>
    intro acc
    simp [List.mapM.loop, List.mapM, Bind.bind, Except.bind, pure, Except.pure]
  | cons a rest ih =>
    intro acc
    rw [show List.mapM.loop f (a :: rest) acc
        = f a >>= fun b => List.mapM.loop f rest (b :: acc) from rfl,
      show (a :: rest).mapM f = f a >>= fun b => List.mapM.loop f rest [b] from rfl]
    cases hfa : f a with
    | error e => simp [except_error_bind]
    | ok b =>
      simp only [except_ok_bind]
      rw [ih (b :: acc), ih [b]]
      cases rest.mapM f <;>
        simp [except_ok_bind, except_error_bind, List.reverse_cons, List.append_assoc]

theorem except_mapM_nil {ε α β : Type} (f : α → Except ε β) :
    ([] : List α).mapM f = .ok [] := rfl

theorem except_mapM_cons {ε α β : Type} (f : α → Except ε β) (a : α) (l : List α) :
    (a :: l).mapM f = f a >>= fun b => l.mapM f >>= fun bs => .ok (b :: bs) := by
  rw [show (a :: l).mapM f = f a >>= fun b => List.mapM.loop f l [b] from rfl]
  cases hfa : f a with
  | error e => simp [except_error_bind]
  | ok b =>
    simp only [except_ok_bind]
    rw [except_mapM_loop f l [b]]
    cases l.mapM f <;> simp [except_ok_bind, except_error_bind]

theorem list_mapM_except_ok_length {ε α β : Type} (f : α → Except ε β) :
    ∀ (l : List α) (l1 : List β), l.mapM f = .ok l1 → l1.length = l.length := by
  intro l
  induction l with
  | nil =>
    intro l1 h
    rw [except_mapM_nil] at h
    injection h with h
    simp [← h]
  | cons a rest ih =>
    intro l1 h
    rw [except_mapM_cons, except_bind_eq_ok] at h
    obtain ⟨b, hb, h⟩ := h
    rw [except_bind_eq_ok] at h
    obtain ⟨bs, hbs, h⟩ := h
    injection h with h
    subst h
    simp [ih bs hbs]

/-- Evaluating every expression against a batch succeeds and produces arrays
of the batch's row count, given that each expression does. -/
theorem eval_arrays_ok (b : RecordBatch) :
    ∀ (pexprs : List PhysExpr),
      (∀ pe ∈ pexprs, ∃ v, pe.evaluate b = .ok v ∧
        (ColumnarValue.into_array v b.num_rows).len = b.num_rows) →
      ∃ arrays, pexprs.mapM (fun expr => (expr.evaluate b).map
          (fun v => v.into_array b.num_rows)) = .ok arrays ∧
        arrays.length = pexprs.length ∧ ∀ a ∈ arrays, a.len = b.num_rows := by
  intro pexprs
  induction pexprs with
  | nil => intro _; exact ⟨[], rfl, by simp, by simp⟩
  | cons pe rest ih =>
    intro h
    obtain ⟨v, hv, hlen⟩ := h pe (by simp)
    obtain ⟨arrays, harr, hal, hev⟩ := ih (fun pe1 h1 => h pe1 (by simp [h1]))
    refine ⟨v.into_array b.num_rows :: arrays, ?_, by simp [hal], ?_⟩
    · rw [except_mapM_cons]
      simp only [hv, except_map_ok, except_ok_bind, harr]
    · intro a ha
      rcases List.mem_cons.mp ha with h1 | h1
      · rw [h1]; exact hlen
      · exact hev a h1

/-- With at least one expression, a matching schema width, and all
evaluations producing row-count-sized arrays, `batch_project` produces a
batch with one column per expression, the given schema, and the input batch's
row count. -/
theorem batch_project_ok (b : RecordBatch) (pexprs : List PhysExpr) (schema : Schema)
    (hne : pexprs ≠ [])
    (hw : schema.fields.length = pexprs.length)
    (heval : ∀ pe ∈ pexprs, ∃ v, pe.evaluate b = .ok v ∧
      (ColumnarValue.into_array v b.num_rows).len = b.num_rows) :
    ∃ out, batch_project b pexprs schema = .ok out ∧
      out.columns.length = pexprs.length ∧ out.schema = schema ∧
      out.num_rows = b.num_rows := by
  obtain ⟨arrays, harr, hal, hev⟩ := eval_arrays_ok b pexprs heval
  have hanil : arrays ≠ [] := by
    intro he
    rw [he] at hal
    exact hne (List.length_eq_zero.mp hal.symm)
  obtain ⟨a0, atl, ha0⟩ := List.exists_cons_of_ne_nil hanil
  subst ha0
  have h0 := hev a0 (by simp)
  refine ⟨⟨schema, a0 :: atl⟩, ?_, hal, rfl, ?_⟩
  · unfold batch_project
    rw [harr]
    unfold RecordBatch.try_new
    have h2 : schema.fields.length = atl.length + 1 := by
      rw [hw, ← hal]
      simp
    have h3 : ¬ ∃ x ∈ atl, ¬ x.len = a0.len := by
      rintro ⟨x, hx, hxne⟩
      exact hxne (by rw [hev x (by simp [hx]), h0])
    simp [h2, h3]
  · simp [RecordBatch.num_rows, ArrowArray.len] at h0 ⊢
    exact h0

/-- Counterexample to C7 as stated: a projection with `K = 0` expressions over
an input of one one-row batch.  No expression evaluation fails (vacuously),
yet the stream does not yield one output batch per input batch: assembling a
batch with zero columns fails, so the single output item is an error, not a
batch. -/
theorem claim7_counterexample :
    ProjectionExec.try_new []
        ⟨⟨[⟨"a", .Int64, false⟩]⟩, .UnknownPartitioning 1, OptimizerHints.default,
          [[.ok ⟨⟨[⟨"a", .Int64, false⟩]⟩, [⟨[.Int64 (some 7)]⟩]⟩]]⟩
      = .ok ⟨[], ⟨[]⟩,
          ⟨⟨[⟨"a", .Int64, false⟩]⟩, .UnknownPartitioning 1, OptimizerHints.default,
            [[.ok ⟨⟨[⟨"a", .Int64, false⟩]⟩, [⟨[.Int64 (some 7)]⟩]⟩]]⟩⟩
    ∧ RecordBatch.num_rows ⟨⟨[⟨"a", .Int64, false⟩]⟩, [⟨[.Int64 (some 7)]⟩]⟩ = 1
    ∧ ProjectionStream.run
        (ProjectionExec.execute
          ⟨[], ⟨[]⟩,
            ⟨⟨[⟨"a", .Int64, false⟩]⟩, .UnknownPartitioning 1, OptimizerHints.default,
              [[.ok ⟨⟨[⟨"a", .Int64, false⟩]⟩, [⟨[.Int64 (some 7)]⟩]⟩]]⟩⟩ 0)
      = [.error (.InvalidArgumentError
          "at least one column must be defined to create a record batch")] := by
  refine ⟨rfl, rfl, ?_⟩
  show ProjectionStream.run ⟨⟨[]⟩, [],
    [.ok ⟨⟨[⟨"a", .Int64, false⟩]⟩, [⟨[.Int64 (some 7)]⟩]⟩]⟩ = _
  rw [run_eq_map]
  simp [batch_project, RecordBatch.try_new, List.mapM.loop, pure, Except.pure]

/-- C7 (amended): for a projection with at least one expression (`K ≥ 1`)
over an input stream of `N` ok batches, when every expression evaluation
succeeds and materializes to an array of the batch's row count, the streaming
projection yields exactly `N` ok output batches, the i-th having `K` columns,
the projection's precomputed output schema, and the i-th input batch's row
count. -/
theorem claim7_amended_stream_shape (exprs : List (PhysExpr × String))
    (input : InputPlan) (p : ProjectionExec) (partition : Nat)
    (batches : List RecordBatch)
    (hp : ProjectionExec.try_new exprs input = .ok p)
    (hstream : InputPlan.execute input partition = batches.map Except.ok)
    (hK : exprs ≠ [])
    (heval : ∀ b ∈ batches, ∀ en ∈ exprs, ∃ v, PhysExpr.evaluate en.1 b = .ok v ∧
      (ColumnarValue.into_array v (RecordBatch.num_rows b)).len =
        RecordBatch.num_rows b) :
    ∃ outs : List RecordBatch,
      ProjectionStream.run (ProjectionExec.execute p partition) =
        outs.map Except.ok ∧
      outs.length = batches.length ∧
      List.Forall₂ (fun out inb =>
        (RecordBatch.columns out).length = exprs.length ∧
        RecordBatch.schema out = p.schema ∧
        RecordBatch.num_rows out = RecordBatch.num_rows inb) outs batches := by
  unfold ProjectionExec.try_new at hp
  rw [except_bind_eq_ok] at hp
  obtain ⟨fields, hf, hpp⟩ := hp
  injection hpp with hpp
  have hw : p.schema.fields.length = exprs.length := by
    rw [← hpp]
    exact list_mapM_except_ok_length _ exprs fields hf
  have hexpr : p.expr = exprs := by rw [← hpp]
  have hinput : p.input = input := by rw [← hpp]
  have hrun : ProjectionStream.run (ProjectionExec.execute p partition) =
      batches.map (fun b => batch_project b (exprs.map Prod.fst) p.schema) := by
    unfold ProjectionExec.execute
    rw [hexpr, hinput, hstream, run_eq_map, List.map_map]
    rfl
  rw [hrun]
  have MAIN : ∀ bs : List RecordBatch,
      (∀ b ∈ bs, ∀ en ∈ exprs, ∃ v, PhysExpr.evaluate en.1 b = .ok v ∧
        (ColumnarValue.into_array v (RecordBatch.num_rows b)).len =
          RecordBatch.num_rows b) →
      ∃ outs : List RecordBatch,
        bs.map (fun b => batch_project b (exprs.map Prod.fst) p.schema) =
          outs.map Except.ok ∧
        outs.length = bs.length ∧
        List.Forall₂ (fun out inb =>
          (RecordBatch.columns out).length = exprs.length ∧
          RecordBatch.schema out = p.schema ∧
          RecordBatch.num_rows out = RecordBatch.num_rows inb) outs bs := by
    intro bs
    induction bs with
    | nil => intro _; exact ⟨[], by simp, by simp, List.Forall₂.nil⟩
    | cons b rest ih =>
      intro hv
      obtain ⟨out, hout, hoc, hos, hor⟩ :=
        batch_project_ok b (exprs.map Prod.fst) p.schema
          (by simpa using hK) (by simp [hw])
          (by
            intro pe hpe
            obtain ⟨en, hen, hpe1⟩ := List.mem_map.mp hpe
            rw [← hpe1]
            exact hv b (by simp) en hen)
      obtain ⟨outs, ho1, ho2, ho3⟩ := ih (fun b1 h1 => hv b1 (by simp [h1]))
      refine ⟨out :: outs, by simp [hout, ho1], by simp [ho2], ?_⟩
      exact List.Forall₂.cons ⟨by simpa using hoc, hos, hor⟩ ho3
  exact MAIN batches heval

/-- Witness for the amended C7: one scalar expression over one two-row batch. -/
theorem claim7_witness :
    ProjectionExec.try_new
        [(⟨none, fun _ => .ok .Int64, fun _ => .ok false,
            fun _ => .ok (.Scalar (.Int64 (some 7)))⟩, "x")]
        ⟨⟨[⟨"a", .Int64, false⟩]⟩, .UnknownPartitioning 1, OptimizerHints.default,
          [[.ok ⟨⟨[⟨"a", .Int64, false⟩]⟩, [⟨[.Int64 (some 1), .Int64 (some 2)]⟩]⟩]]⟩
      = .ok ⟨[(⟨none, fun _ => .ok .Int64, fun _ => .ok false,
            fun _ => .ok (.Scalar (.Int64 (some 7)))⟩, "x")],
          ⟨[⟨"x", .Int64, false⟩]⟩,
          ⟨⟨[⟨"a", .Int64, false⟩]⟩, .UnknownPartitioning 1, OptimizerHints.default,
            [[.ok ⟨⟨[⟨"a", .Int64, false⟩]⟩, [⟨[.Int64 (some 1), .Int64 (some 2)]⟩]⟩]]⟩⟩
    ∧ ∃ outs : List RecordBatch,
        ProjectionStream.run
          (ProjectionExec.execute
            ⟨[(⟨none, fun _ => .ok .Int64, fun _ => .ok false,
                fun _ => .ok (.Scalar (.Int64 (some 7)))⟩, "x")],
              ⟨[⟨"x", .Int64, false⟩]⟩,
              ⟨⟨[⟨"a", .Int64, false⟩]⟩, .UnknownPartitioning 1, OptimizerHints.default,
                [[.ok ⟨⟨[⟨"a", .Int64, false⟩]⟩,
                  [⟨[.Int64 (some 1), .Int64 (some 2)]⟩]⟩]]⟩⟩ 0) =
          outs.map Except.ok ∧
        outs.length = 1 ∧
        List.Forall₂ (fun out inb =>
          (RecordBatch.columns out).length = 1 ∧
          RecordBatch.schema out = Schema.mk [⟨"x", .Int64, false⟩] ∧
          RecordBatch.num_rows out = RecordBatch.num_rows inb) outs
          [⟨⟨[⟨"a", .Int64, false⟩]⟩, [⟨[.Int64 (some 1), .Int64 (some 2)]⟩]⟩] := by
  refine ⟨rfl, ?_⟩
  exact claim7_amended_stream_shape
    [(⟨none, fun _ => .ok .Int64, fun _ => .ok false,
        fun _ => .ok (.Scalar (.Int64 (some 7)))⟩, "x")]
    ⟨⟨[⟨"a", .Int64, false⟩]⟩, .UnknownPartitioning 1, OptimizerHints.default,
      [[.ok ⟨⟨[⟨"a", .Int64, false⟩]⟩, [⟨[.Int64 (some 1), .Int64 (some 2)]⟩]⟩]]⟩
    ⟨[(⟨none, fun _ => .ok .Int64, fun _ => .ok false,
        fun _ => .ok (.Scalar (.Int64 (some 7)))⟩, "x")],
      ⟨[⟨"x", .Int64, false⟩]⟩,
      ⟨⟨[⟨"a", .Int64, false⟩]⟩, .UnknownPartitioning 1, OptimizerHints.default,
        [[.ok ⟨⟨[⟨"a", .Int64, false⟩]⟩,
          [⟨[.Int64 (some 1), .Int64 (some 2)]⟩]⟩]]⟩⟩
    0
    [⟨⟨[⟨"a", .Int64, false⟩]⟩, [⟨[.Int64 (some 1), .Int64 (some 2)]⟩]⟩]
    rfl rfl (by simp)
    (by
      intro b hb en hen
      simp only [List.mem_singleton] at hb hen
      subst hb
      subst hen
      exact ⟨.Scalar (.Int64 (some 7)), rfl, rfl⟩)

/-! ## Claim C10: the projection passes partitioning through -/

/-- C10: for every projection operator, `output_partitioning` returns the
input operator's output partitioning unchanged — the projection preserves the
number and identity of partitions. -/
theorem claim10_output_partitioning (p : ProjectionExec) :
    ProjectionExec.output_partitioning p = InputPlan.output_partitioning p.input := rfl
